import Mathlib

/-! Verification of the FinancialPlatform dashboard client
(repository contract-technical-assignment).

The definitions below are a shallow embedding of the TypeScript sources under
client/src: the React Query hooks of lib/hooks/useContract.ts, the contract
event handlers of lib/hooks/useContractEvents.ts, the zod form schemas of
lib/schemas/forms.ts, and the web3 helpers (formatError, lib/errors.ts).
Where the Solidity contract itself is absent from the corpus slice, the
ledger state machine is modelled from the specification (section 4.1). -/

/-- A component of a React Query cache key: the arrays passed as queryKey in
useContract.ts mix strings and numbers, for example
[QUERY_KEYS.TRANSACTION, transactionId, chainId]. -/
inductive KeyPart where
  | str (s : String)
  | num (n : Nat)
  deriving DecidableEq, Repr

/-- A React Query cache key, as built in useContract.ts / useContractEvents.ts. -/
abbrev QueryKey := List KeyPart

/- The QUERY_KEYS constant of useContract.ts (lines 16-27). -/
namespace QUERY_KEYS

def USER : String := "user"

def USERS : String := "users"

def TRANSACTION : String := "transaction"

def TRANSACTIONS : String := "transactions"

def USER_TRANSACTIONS : String := "userTransactions"

def APPROVAL : String := "approval"

def APPROVALS : String := "approvals"

def PENDING_APPROVALS : String := "pendingApprovals"

def DASHBOARD_METRICS : String := "dashboardMetrics"

def TOKEN_BALANCE : String := "tokenBalance"

end QUERY_KEYS

/-- One cached query in the React Query cache: its key, its cached data (if a
fetch has ever succeeded) and whether it is currently marked invalidated.
The data payload is abstract (type parameter). -/
structure CacheEntry (α : Type) where
  key : QueryKey
  data : Option α
  invalidated : Bool
  deriving DecidableEq, Repr

/-- The query cache: the set of currently cached queries. -/
abbrev Cache (α : Type) := List (CacheEntry α)

/-- React Query key filtering: invalidateQueries with filter queryKey f
matches every cached query whose key extends f component-wise (f is a
componentwise initial segment of the key). -/
def matchesFilter : QueryKey → QueryKey → Bool
  | [], _ => true
  | _ :: _, [] => false
  | f :: fs, k :: ks => f == k && matchesFilter fs ks

/-- queryClient.invalidateQueries: marks every matching cached query as
invalidated. It never writes, removes or alters cached data. -/
def invalidateQueries {α : Type} (filter : QueryKey) (c : Cache α) : Cache α :=
  c.map fun e =>
    if matchesFilter filter e.key then { e with invalidated := true } else e

/-- Effect on the cache of a sequence of invalidateQueries calls, executed in
order (as each onSuccess handler / event handler does). -/
def applyInvalidations {α : Type} (filters : List QueryKey) (c : Cache α) : Cache α :=
  filters.foldl (fun acc f => invalidateQueries f acc) c

/-- Marking of a single entry by a set of filters (used to characterise
applyInvalidations). -/
def markAll {α : Type} (fs : List QueryKey) (e : CacheEntry α) : CacheEntry α :=
  if fs.any (fun f => matchesFilter f e.key) then { e with invalidated := true } else e

/-- Cache keys invalidated by useCreateTransaction onSuccess
(useContract.ts lines 347-357). -/
def useCreateTransaction.onSuccessInvalidations : List QueryKey :=
  [[.str QUERY_KEYS.TRANSACTIONS],
   [.str QUERY_KEYS.USER_TRANSACTIONS],
   [.str QUERY_KEYS.DASHBOARD_METRICS]]

/-- Cache keys invalidated by useCompleteTransaction onSuccess
(useContract.ts lines 383-392). -/
def useCompleteTransaction.onSuccessInvalidations : List QueryKey :=
  [[.str QUERY_KEYS.TRANSACTIONS],
   [.str QUERY_KEYS.USER_TRANSACTIONS],
   [.str QUERY_KEYS.DASHBOARD_METRICS]]

/-- Cache keys invalidated by useProcessApproval onSuccess
(useContract.ts lines 482-491). -/
def useProcessApproval.onSuccessInvalidations : List QueryKey :=
  [[.str QUERY_KEYS.PENDING_APPROVALS],
   [.str QUERY_KEYS.TRANSACTIONS],
   [.str QUERY_KEYS.DASHBOARD_METRICS]]

/-- Cache keys invalidated by useRequestApproval onSuccess
(useContract.ts lines 524-530). -/
def useRequestApproval.onSuccessInvalidations : List QueryKey :=
  [[.str QUERY_KEYS.PENDING_APPROVALS],
   [.str QUERY_KEYS.TRANSACTIONS]]

/-- Cache keys invalidated by useRegisterUser onSuccess
(useContract.ts lines 113-119). -/
def useRegisterUser.onSuccessInvalidations : List QueryKey :=
  [[.str QUERY_KEYS.USERS],
   [.str QUERY_KEYS.DASHBOARD_METRICS]]

/-- Cache keys invalidated by useUpdateUserRole onSuccess
(useContract.ts lines 152-155). -/
def useUpdateUserRole.onSuccessInvalidations : List QueryKey :=
  [[.str QUERY_KEYS.USERS],
   [.str QUERY_KEYS.USER]]

/-- A user-facing toast notification (the sonner calls in the event handlers). -/
inductive Toast where
  | success (msg : String)
  | info (msg : String)
  deriving DecidableEq, Repr

/-- The observable effect of one contract event handler: the invalidateQueries
calls it performs, in order, and the toasts it emits. Handlers in
useContractEvents.ts do nothing else to application state. -/
structure HandlerEffect where
  invalidations : List QueryKey
  toasts : List Toast
  deriving Repr

/-- The cache effect of running a handler (its invalidateQueries calls). -/
def HandlerEffect.applyTo {α : Type} (h : HandlerEffect) (c : Cache α) : Cache α :=
  applyInvalidations h.invalidations c

/-- The status text lookup of handleTransactionStatusUpdated:
the JS expression (list indexing falling back on the or-else value)
interprets out-of-range indices as the label Unknown. -/
def transactionStatusLabels : List String :=
  ["Pending", "Active", "Completed", "Rejected"]

def transactionStatusText (status : Nat) : String :=
  (transactionStatusLabels[status]?).getD "Unknown"

/-- The status text lookup of handleApprovalProcessed. -/
def approvalStatusLabels : List String :=
  ["Pending", "Approved", "Rejected"]

def approvalStatusText (status : Nat) : String :=
  (approvalStatusLabels[status]?).getD "Unknown"

/-- handleTransactionCreated (useContractEvents.ts lines 38-65).
address is the connected wallet address captured by the effect closure. -/
def handleTransactionCreated (address : String) (transactionId : Nat)
    (fromAddr toAddr : String) (_amount : Nat) : HandlerEffect :=
  { toasts :=
      if fromAddr.toLower == address.toLower then
        [.success ("Transaction #" ++ toString transactionId ++ " created successfully!")]
      else if toAddr.toLower == address.toLower then
        [.info ("You received a transaction #" ++ toString transactionId ++ "!")]
      else []
    invalidations :=
      [[.str QUERY_KEYS.USER_TRANSACTIONS],
       [.str QUERY_KEYS.DASHBOARD_METRICS]] }

/-- handleTransactionStatusUpdated (useContractEvents.ts lines 67-94). -/
def handleTransactionStatusUpdated (_address : String) (transactionId status : Nat) :
    HandlerEffect :=
  { toasts :=
      [.info ("Transaction #" ++ toString transactionId ++ " status updated to " ++
        transactionStatusText status)]
    invalidations :=
      [[.str QUERY_KEYS.USER_TRANSACTIONS],
       [.str QUERY_KEYS.TRANSACTION, .num transactionId],
       [.str QUERY_KEYS.DASHBOARD_METRICS]] }

/-- handleApprovalRequested (useContractEvents.ts lines 96-122). -/
def handleApprovalRequested (address : String) (approvalId transactionId : Nat)
    (requester : String) : HandlerEffect :=
  { toasts :=
      if requester.toLower == address.toLower then
        [.info ("Approval #" ++ toString approvalId ++ " requested for transaction #" ++
          toString transactionId)]
      else []
    invalidations :=
      [[.str QUERY_KEYS.PENDING_APPROVALS],
       [.str QUERY_KEYS.DASHBOARD_METRICS]] }

/-- handleApprovalProcessed (useContractEvents.ts lines 124-159). -/
def handleApprovalProcessed (address : String) (approvalId status : Nat)
    (approver : String) : HandlerEffect :=
  { toasts :=
      if approver.toLower == address.toLower then
        [.success ("You " ++ (approvalStatusText status).toLower ++ " approval #" ++
          toString approvalId)]
      else
        [.info ("Approval #" ++ toString approvalId ++ " was " ++
          (approvalStatusText status).toLower)]
    invalidations :=
      [[.str QUERY_KEYS.PENDING_APPROVALS],
       [.str QUERY_KEYS.USER_TRANSACTIONS],
       [.str QUERY_KEYS.DASHBOARD_METRICS]] }

/-- handleUserRegistered (useContractEvents.ts lines 161-185). -/
def handleUserRegistered (address : String) (_userId : Nat)
    (walletAddress name : String) (_role : Nat) : HandlerEffect :=
  { toasts :=
      if walletAddress.toLower == address.toLower then
        [.success ("Welcome " ++ name ++ "! Your account has been registered.")]
      else []
    invalidations :=
      [[.str QUERY_KEYS.USER],
       [.str QUERY_KEYS.DASHBOARD_METRICS]] }

/-- JS truthiness of an optional number (the guards in the queryFn bodies,
such as the check rejecting a missing or zero chainId). -/
def jsTruthyNat : Option Nat → Bool
  | none => false
  | some n => n != 0

/-- JS truthiness of a string (empty string is falsy). -/
def jsTruthyStr (s : String) : Bool := s != ""

/-- The raw User struct as returned by contract.getUser: enum fields arrive as
integers on the wire. -/
structure RawUser where
  id : Nat
  walletAddress : String
  name : String
  email : String
  role : Nat
  isActive : Bool
  createdAt : Nat
  deriving DecidableEq, Repr

/-- The User object built by useUser.queryFn: the object literal copies every
field; the role is Number(userData.role), a plain integer with no range
check or defined fallback. -/
structure ClientUser where
  id : Nat
  walletAddress : String
  name : String
  email : String
  role : Nat
  isActive : Bool
  createdAt : Nat
  deriving DecidableEq, Repr

/-- The raw Transaction struct as returned by contract.getTransaction.
The TS fields named from and to are rendered here as fromAddr and toAddr. -/
structure RawTransaction where
  id : Nat
  fromAddr : String
  toAddr : String
  amount : Nat
  description : String
  status : Nat
  timestamp : Nat
  approvalId : Nat
  deriving DecidableEq, Repr

/-- The Transaction object built by the query functions: the object literal
copies every field of the raw struct unchanged (the status integer included). -/
structure ClientTransaction where
  id : Nat
  fromAddr : String
  toAddr : String
  amount : Nat
  description : String
  status : Nat
  timestamp : Nat
  approvalId : Nat
  deriving DecidableEq, Repr

/-- The raw Approval struct as returned by contract.getApproval. -/
structure RawApproval where
  id : Nat
  transactionId : Nat
  requester : String
  approver : String
  approvalType : Nat
  status : Nat
  reason : String
  timestamp : Nat
  deriving DecidableEq, Repr

/-- The Approval object built by the query functions (fields copied unchanged). -/
structure ClientApproval where
  id : Nat
  transactionId : Nat
  requester : String
  approver : String
  approvalType : Nat
  status : Nat
  reason : String
  timestamp : Nat
  deriving DecidableEq, Repr

/-- The metrics object built by useDashboardMetrics.queryFn. -/
structure ClientDashboardMetrics where
  totalTransactions : Nat
  pendingApprovals : Nat
  totalUsers : Nat
  userRole : Nat
  deriving DecidableEq, Repr

/-- The read surface of the FinancialPlatform contract as the hooks call it.
Each call either returns a decoded struct or throws (ethers call failure,
revert, missing contract); a throw is an error value here. A getContract
failure inside the same try block behaves as any of these calls failing. -/
structure ContractReads where
  getUser : String → Except String RawUser
  getTransaction : Int → Except String RawTransaction
  getUserTransactions : String → Except String (List Int)
  getAllTransactions : Except String (List Int)
  getPendingApprovals : Except String (List Int)
  getApproval : Nat → Except String RawApproval
  getTransactionCount : Except String Nat
  getUserCount : Except String Nat

/-- The field-by-field object literal of useUser.queryFn (useContract.ts
lines 56-64): note role is Number(userData.role), passed through raw. -/
def mapUserData (u : RawUser) : ClientUser :=
  { id := u.id, walletAddress := u.walletAddress, name := u.name, email := u.email,
    role := u.role, isActive := u.isActive, createdAt := u.createdAt }

/-- The field-by-field object literal mapping a raw transaction (useContract.ts
lines 183-192, 225-234, 268-277). -/
def mapTransactionData (t : RawTransaction) : ClientTransaction :=
  { id := t.id, fromAddr := t.fromAddr, toAddr := t.toAddr, amount := t.amount,
    description := t.description, status := t.status, timestamp := t.timestamp,
    approvalId := t.approvalId }

/-- The field-by-field object literal mapping a raw approval (useContract.ts
lines 428-437, 551-560). -/
def mapApprovalData (a : RawApproval) : ClientApproval :=
  { id := a.id, transactionId := a.transactionId, requester := a.requester,
    approver := a.approver, approvalType := a.approvalType, status := a.status,
    reason := a.reason, timestamp := a.timestamp }

/-- The JS comparator (a, b) => Number(b.timestamp - a.timestamp) sorts by
timestamp descending: Number applied to a bigint difference keeps its sign, so
Array.prototype.sort with this comparator is modelled as a sort by the induced
total order (b.timestamp ≤ a.timestamp puts a first). -/
def sortByTimestampDescBy {β : Type} (ts : β → Nat) (l : List β) : List β :=
  List.insertionSort (fun a b => ts b ≤ ts a) l

/-- useUser.queryFn (useContract.ts lines 43-76): guard on provider, chainId
and address, then getUser inside try/catch; any throw resolves to null. -/
def useUser.queryFn (c : ContractReads) (provider : Bool) (chainId : Option Nat)
    (userAddress : String) : Option ClientUser :=
  if !provider || !jsTruthyNat chainId || !jsTruthyStr userAddress then none
  else
    match c.getUser userAddress with
    | .ok u => some (mapUserData u)
    | .error _ => none

/-- useTransaction.queryFn (useContract.ts lines 175-197). -/
def useTransaction.queryFn (c : ContractReads) (provider : Bool) (chainId : Option Nat)
    (transactionId : Int) : Option ClientTransaction :=
  if !provider || !jsTruthyNat chainId || transactionId < 0 then none
  else
    match c.getTransaction transactionId with
    | .ok t => some (mapTransactionData t)
    | .error _ => none

/-- useUserTransactions.queryFn (useContract.ts lines 212-243): fetches the id
list, then each transaction (Promise.all: one rejection rejects the whole),
maps and sorts; any throw resolves to the empty list. The hook computes
targetAddress as userAddress or else the connected wallet address. -/
def useUserTransactions.queryFn (c : ContractReads) (provider : Bool)
    (chainId : Option Nat) (targetAddress : String) : List ClientTransaction :=
  if !provider || !jsTruthyNat chainId || !jsTruthyStr targetAddress then []
  else
    match c.getUserTransactions targetAddress >>= fun ids =>
        ids.mapM (fun i => c.getTransaction i) with
    | .ok raws => sortByTimestampDescBy (fun t => t.timestamp) (raws.map mapTransactionData)
    | .error _ => []

/-- useAllTransactions.queryFn (useContract.ts lines 258-287). -/
def useAllTransactions.queryFn (c : ContractReads) (provider : Bool)
    (chainId : Option Nat) : List ClientTransaction :=
  if !provider || !jsTruthyNat chainId then []
  else
    match c.getAllTransactions >>= fun ids =>
        ids.mapM (fun i => c.getTransaction i) with
    | .ok raws => sortByTimestampDescBy (fun t => t.timestamp) (raws.map mapTransactionData)
    | .error _ => []

/-- usePendingApprovals.queryFn (useContract.ts lines 413-446). -/
def usePendingApprovals.queryFn (c : ContractReads) (provider : Bool)
    (chainId : Option Nat) : List ClientApproval :=
  if !provider || !jsTruthyNat chainId then []
  else
    match c.getPendingApprovals >>= fun ids =>
        ids.mapM (fun i => c.getApproval i.toNat) with
    | .ok raws => sortByTimestampDescBy (fun a => a.timestamp) (raws.map mapApprovalData)
    | .error _ => []

/-- useApproval.queryFn (useContract.ts lines 546-564): approvalId is optional
and the guard rejects a missing or zero id (JS truthiness). -/
def useApproval.queryFn (c : ContractReads) (provider : Bool) (chainId : Option Nat)
    (approvalId : Option Nat) : Option ClientApproval :=
  if !provider || !jsTruthyNat chainId || !jsTruthyNat approvalId then none
  else
    match c.getApproval ((approvalId).getD 0) with
    | .ok a => some (mapApprovalData a)
    | .error _ => none

/-- useDashboardMetrics.queryFn (useContract.ts lines 584-607): three parallel
reads; a failure of any resolves the whole to null. user is the useUser data
for the connected address; userRole falls back to Regular (0) by JS or-else. -/
def useDashboardMetrics.queryFn (c : ContractReads) (provider : Bool)
    (chainId : Option Nat) (user : Option ClientUser) : Option ClientDashboardMetrics :=
  if !provider || !jsTruthyNat chainId then none
  else
    match c.getTransactionCount, c.getUserCount, c.getPendingApprovals with
    | .ok txCount, .ok userCount, .ok pending =>
        some { totalTransactions := txCount, pendingApprovals := pending.length,
               totalUsers := userCount, userRole := (user.map (fun u => u.role)).getD 0 }
    | _, _, _ => none

/-- usePendingApprovals refetchInterval (useContract.ts line 449). -/
def usePendingApprovals.refetchIntervalMs : Nat := 10000

/-- useDashboardMetrics refetchInterval (useContract.ts line 610). -/
def useDashboardMetrics.refetchIntervalMs : Nat := 30000

/-- useUser staleTime (useContract.ts line 78). -/
def useUser.staleTimeMs : Nat := 30000

/-- A JS error value as the two error helpers inspect it: an object with
optional string fields, a plain string, or anything else. A field that is
absent or not a string is none; dataMessage stands for the nested
error.data.message; stack is the stack trace field every JS Error carries. -/
structure JsErrorObj where
  reason : Option String
  message : Option String
  dataMessage : Option String
  stack : Option String
  deriving DecidableEq, Repr

/-- The runtime value passed to an error formatter. -/
inductive JsErrorValue where
  | obj (e : JsErrorObj)
  | str (s : String)
  | other
  deriving DecidableEq, Repr

/-- formatError (lib/web3/provider, corpus part_002 lines 192-211): a string
reason field wins, then a string message field, then a string error value,
then the generic message. The stack field is never consulted. -/
def formatError : JsErrorValue → String
  | .obj e =>
    match e.reason with
    | some r => r
    | none =>
      match e.message with
      | some m => m
      | none => "An unknown error occurred"
  | .str s => s
  | .other => "An unknown error occurred"

/-- extractErrorMessage (lib/errors.ts lines 6-24): a string message field
wins, then data.message, then the generic message. It never consults the
reason field, and a plain-string error falls to the generic message. -/
def extractErrorMessage : JsErrorValue → String
  | .obj e =>
    match e.message with
    | some m => m
    | none =>
      match e.dataMessage with
      | some m => m
      | none => "An unknown error occurred."
  | _ => "An unknown error occurred."

/-- A JS number as produced by parseFloat, modelled exactly: a finite value
is the signed decimal num / den with den a positive power of ten
(unnormalised), or an infinity. IEEE double rounding maps a mathematical
value to a nearby double of the same sign, which is all the validators below
inspect, so the exact value is a faithful abstraction for them. -/
inductive JsNum where
  | finite (num : Int) (den : Nat)
  | posInf
  | negInf
  deriving DecidableEq, Repr

/-- The rational value a JS number denotes (none for the infinities). -/
def JsNum.val : JsNum → Option ℚ
  | .finite num den => some (mkRat num den)
  | _ => none

/-- The JS test num > 0: den is a positive power of ten, so the sign of the
value is the sign of the numerator. -/
def JsNum.gtZero : JsNum → Bool
  | .finite num _ => decide (0 < num)
  | .posInf => true
  | .negInf => false

/-- ECMAScript StrWhiteSpace characters skipped by parseFloat (the common
ASCII ones; the Unicode space classes are irrelevant to the claims). -/
def isJsWhitespace (c : Char) : Bool :=
  c = ' ' || c = '\t' || c = '\n' || c = '\r' || c = '\x0b' || c = '\x0c'

/-- Numeric value of a digit string. -/
def digitsVal (ds : List Char) : Nat :=
  ds.foldl (fun a c => a * 10 + (c.toNat - 48)) 0

/-- Exponent part of a decimal literal: optional sign then digits; an
exponent marker without digits is ignored (parseFloat keeps the longest
valid literal prefix). -/
def parseExponent (r : List Char) : Int :=
  let eSignNeg : Bool :=
    match r with
    | '-' :: _ => true
    | _ => false
  let r2 : List Char :=
    match r with
    | '-' :: t => t
    | '+' :: t => t
    | _ => r
  let ed := r2.takeWhile Char.isDigit
  if ed.isEmpty then 0
  else if eSignNeg then -(digitsVal ed : Int) else (digitsVal ed : Int)

/-- ECMAScript parseFloat over exact rationals: skip whitespace, optional
sign, then either the Infinity literal or a decimal literal
(digits, optional fraction, optional exponent), reading the longest valid
prefix; none models NaN (no digit found). -/
def parseFloat (s : String) : Option JsNum :=
  let cs0 := s.data.dropWhile isJsWhitespace
  let signNeg : Bool :=
    match cs0 with
    | '-' :: _ => true
    | _ => false
  let cs1 : List Char :=
    match cs0 with
    | '-' :: r => r
    | '+' :: r => r
    | _ => cs0
  if cs1.take 8 = "Infinity".data then
    some (if signNeg then JsNum.negInf else JsNum.posInf)
  else
    let ip := cs1.takeWhile Char.isDigit
    let cs2 := cs1.dropWhile Char.isDigit
    let fp : List Char :=
      match cs2 with
      | '.' :: r => r.takeWhile Char.isDigit
      | _ => []
    let cs3 : List Char :=
      match cs2 with
      | '.' :: r => r.dropWhile Char.isDigit
      | _ => cs2
    if ip.isEmpty && fp.isEmpty then none
    else
      let rawNum : Int := (digitsVal ip : Int) * (10 : Int) ^ fp.length + (digitsVal fp : Int)
      let den0 : Nat := (10 : Nat) ^ fp.length
      let expVal : Int :=
        match cs3 with
        | 'e' :: r => parseExponent r
        | 'E' :: r => parseExponent r
        | _ => 0
      let num1 : Int := if 0 ≤ expVal then rawNum * (10 : Int) ^ expVal.toNat else rawNum
      let den1 : Nat := if 0 ≤ expVal then den0 else den0 * (10 : Nat) ^ (-expVal).toNat
      some (.finite (if signNeg then -num1 else num1) den1)

/-- A character matched by the regex class of hex digits. -/
def isHexDigitChar (c : Char) : Bool :=
  c.isDigit || ('a' ≤ c && c ≤ 'f') || ('A' ≤ c && c ≤ 'F')

/-- The anchored address regex of forms.ts: a 0x follwed by exactly 40 hex
digits and nothing else. -/
def matchesEthAddress (s : String) : Bool :=
  match s.data with
  | '0' :: 'x' :: rest => rest.length == 40 && rest.all isHexDigitChar
  | _ => false

/-- The amount refinement of createTransactionSchema (forms.ts lines 28-34):
parseFloat, then the test that the result is a number and positive. -/
def amountRefineValid (val : String) : Bool :=
  match parseFloat val with
  | some n => n.gtZero
  | none => false

/-- createTransactionSchema (forms.ts lines 23-39) as a validator: safeParse
succeeds exactly when every field rule holds. -/
def createTransactionSchemaValid (toAddress amount description : String) : Bool :=
  decide (1 ≤ toAddress.length) && matchesEthAddress toAddress &&
  decide (1 ≤ amount.length) && amountRefineValid amount &&
  decide (3 ≤ description.length) && decide (description.length ≤ 200)

/-- processApprovalSchema (forms.ts lines 44-52): a boolean decision plus a
reason of 3 to 200 characters. -/
def processApprovalSchemaValid (_approved : Bool) (reason : String) : Bool :=
  decide (3 ≤ reason.length) && decide (reason.length ≤ 200)

/-- registerUserSchema (forms.ts lines 5-18). The zod email rule is kept as
an opaque predicate parameter: no claim depends on its exact regex. Roles
are the UserRole enum values 0, 1, 2. -/
def registerUserSchemaValid (emailOk : String → Bool)
    (walletAddress name email : String) (role : Nat) : Bool :=
  decide (1 ≤ walletAddress.length) && matchesEthAddress walletAddress &&
  decide (2 ≤ name.length) && decide (name.length ≤ 50) &&
  decide (1 ≤ email.length) && emailOk email &&
  decide (role ≤ 2)

/-- A state-changing contract call as issued by the mutation hooks. -/
inductive ContractWrite where
  | createTransaction (toAddress : String) (amount : String) (description : String)
  | processApproval (approvalId : Nat) (approved : Bool) (reason : String)
  | registerUser (walletAddress name email : String) (role : Nat)
  deriving DecidableEq, Repr

/-- Form submission through react-hook-form with the zodResolver
(CreateTransactionForm): handleSubmit invokes the mutation only when the
schema accepts the input, so an invalid input produces no contract call. -/
def submitCreateTransaction (toAddress amount description : String) : Option ContractWrite :=
  if createTransactionSchemaValid toAddress amount description then
    some (.createTransaction toAddress amount description)
  else none

/-- Form submission for processing an approval (approvals page). -/
def submitProcessApproval (approvalId : Nat) (approved : Bool) (reason : String) :
    Option ContractWrite :=
  if processApprovalSchemaValid approved reason then
    some (.processApproval approvalId approved reason)
  else none

/-- Form submission for registering a user (users page form). -/
def submitRegisterUser (emailOk : String → Bool)
    (walletAddress name email : String) (role : Nat) : Option ContractWrite :=
  if registerUserSchemaValid emailOk walletAddress name email role then
    some (.registerUser walletAddress name email role)
  else none

/-- The five contract event topics useContractEvents subscribes to. -/
inductive ContractEventType where
  | transactionCreated
  | transactionStatusUpdated
  | approvalRequested
  | approvalProcessed
  | userRegistered
  deriving DecidableEq, Repr

/-- The subscription order of the effect body (useContractEvents.ts
lines 189-193); the cleanup removes the same five in the same order. -/
def contractEventTypes : List ContractEventType :=
  [.transactionCreated, .transactionStatusUpdated, .approvalRequested,
   .approvalProcessed, .userRegistered]

/-- The wallet state the effect depends on (its dependency array holds
provider, chainId and address; queryClient is stable). provider is the
identity of the provider object, none when absent. -/
structure WalletSnapshot where
  provider : Option Nat
  chainId : Option Nat
  address : Option String
  deriving DecidableEq, Repr

/-- The effect registers listeners exactly when the guard
(provider, chainId and address all truthy) passes and getContract does not
throw; cfg c says whether contract addresses are configured for chain c. -/
def WalletSnapshot.listenersActive (cfg : Nat → Bool) (d : WalletSnapshot) : Bool :=
  d.provider.isSome && jsTruthyNat d.chainId &&
  (match d.address with
   | none => false
   | some a => jsTruthyStr a) &&
  (match d.chainId with
   | some c => cfg c
   | none => false)

/-- The installed contract listeners: event type paired with the identity of
the handler closure (the generation of the effect run that created it). -/
abbrev ListenerStore := List (ContractEventType × Nat)

/-- The five contract.on calls of one effect run. -/
def installListeners (gen : Nat) (l : ListenerStore) : ListenerStore :=
  l ++ contractEventTypes.map (fun e => (e, gen))

/-- One contract.off call: removes that exact handler registration. -/
def removeListener (e : ContractEventType) (gen : Nat) : ListenerStore → ListenerStore
  | [] => []
  | x :: xs => if x = (e, gen) then xs else x :: removeListener e gen xs

/-- The five contract.off calls of one cleanup run (same closures the
matching effect run registered). -/
def removeListeners (gen : Nat) (l : ListenerStore) : ListenerStore :=
  contractEventTypes.foldl (fun acc e => removeListener e gen acc) l

/-- State of the event layer across renders: the live listeners, the
dependency snapshot and generation of the last effect run (none before the
first run or after unmount), and a generation counter. -/
structure EventLayerState where
  listeners : ListenerStore
  current : Option (WalletSnapshot × Nat)
  gen : Nat
  deriving DecidableEq, Repr

def initialEventLayerState : EventLayerState :=
  { listeners := [], current := none, gen := 0 }

/-- One render with wallet snapshot d. React re-runs the effect only when the
dependency array changed: it first runs the previous cleanup (the
contract.off calls; a run whose guard failed or whose getContract threw
returned early and installed nothing, so its cleanup removes nothing), then
runs the effect body, which installs the five listeners when active. -/
def renderEventLayer (cfg : Nat → Bool) (s : EventLayerState) (d : WalletSnapshot) :
    EventLayerState :=
  match s.current with
  | some (d0, g0) =>
    if d0 = d then s
    else
      let cleaned :=
        if d0.listenersActive cfg then removeListeners g0 s.listeners else s.listeners
      let g1 := s.gen + 1
      { listeners :=
          if d.listenersActive cfg then installListeners g1 cleaned else cleaned,
        current := some (d, g1), gen := g1 }
  | none =>
    let g1 := s.gen + 1
    { listeners :=
        if d.listenersActive cfg then installListeners g1 s.listeners else s.listeners,
      current := some (d, g1), gen := g1 }

/-- Component unmount: React runs the cleanup of the last effect run. -/
def unmountEventLayer (cfg : Nat → Bool) (s : EventLayerState) : EventLayerState :=
  match s.current with
  | some (d0, g0) =>
    { s with
      listeners :=
        if d0.listenersActive cfg then removeListeners g0 s.listeners else s.listeners,
      current := none }
  | none => s

/-- The event layer state after a sequence of renders starting from mount. -/
def runEventLayer (cfg : Nat → Bool) (renders : List WalletSnapshot) : EventLayerState :=
  renders.foldl (renderEventLayer cfg) initialEventLayerState

/-- The listeners an effect run leaves installed. -/
def canonicalListeners (cfg : Nat → Bool) : Option (WalletSnapshot × Nat) → ListenerStore
  | some (d, g) =>
      if d.listenersActive cfg then contractEventTypes.map (fun e => (e, g)) else []
  | none => []

/-- Modelled from the spec: the FinancialPlatform Solidity contract is absent
from the corpus slice (only its ABI, its deployment script and the client are
present), so the ledger state machine is modelled from spec section 4.1
(operations, failure modes, transitions) and section 3 (data model). Role of
a registered user. -/
inductive LedgerRole where
  | regular
  | manager
  | admin
  deriving DecidableEq, Repr

/-- Modelled from the spec: Transaction status enumeration of section 3. -/
inductive TxStatus where
  | pending
  | active
  | completed
  | rejected
  deriving DecidableEq, Repr

/-- Modelled from the spec: Approval status enumeration of section 3. -/
inductive ApStatus where
  | pending
  | approved
  | rejected
  deriving DecidableEq, Repr

/-- Modelled from the spec: the User record of the ledger. -/
structure LedgerUser where
  id : Nat
  addr : String
  name : String
  email : String
  role : LedgerRole
  isActive : Bool
  deriving DecidableEq, Repr

/-- Modelled from the spec: the Transaction record of the ledger; approvalId 0
means no approval has been requested yet. -/
structure LedgerTx where
  id : Nat
  fromAddr : String
  toAddr : String
  amount : Nat
  description : String
  status : TxStatus
  timestamp : Nat
  approvalId : Nat
  deriving DecidableEq, Repr

/-- Modelled from the spec: the Approval record of the ledger; the approver is
the empty address until the approval is decided. -/
structure LedgerApproval where
  id : Nat
  transactionId : Nat
  requester : String
  approver : String
  status : ApStatus
  reason : String
  timestamp : Nat
  deriving DecidableEq, Repr

/-- Modelled from the spec: the whole authoritative ledger state; ids are
assigned monotonically from the next-id counters, starting at 1 so that
approvalId 0 can serve as the none sentinel. -/
structure Ledger where
  users : List LedgerUser
  transactions : List LedgerTx
  approvals : List LedgerApproval
  nextUserId : Nat
  nextTxId : Nat
  nextApprovalId : Nat
  deriving DecidableEq, Repr

/-- Modelled from the spec: the failure modes named in section 4.1. -/
inductive LedgerError where
  | unauthorized
  | duplicateAddress
  | userNotFound
  | invalidRecipient
  | invalidAmount
  | notOwner
  | invalidState
  | notFound
  deriving DecidableEq, Repr

def Ledger.findUser (l : Ledger) (a : String) : Option LedgerUser :=
  l.users.find? (fun u => u.addr == a)

def Ledger.findTx (l : Ledger) (i : Nat) : Option LedgerTx :=
  l.transactions.find? (fun t => t.id == i)

def Ledger.findApproval (l : Ledger) (i : Nat) : Option LedgerApproval :=
  l.approvals.find? (fun a => a.id == i)

/-- Store a transaction back under its id (Solidity mapping write). -/
def Ledger.setTx (l : Ledger) (t : LedgerTx) : Ledger :=
  { l with transactions := l.transactions.map (fun t0 => if t0.id == t.id then t else t0) }

/-- Store an approval back under its id. -/
def Ledger.setApproval (l : Ledger) (a : LedgerApproval) : Ledger :=
  { l with approvals := l.approvals.map (fun a0 => if a0.id == a.id then a else a0) }

def Ledger.isAdmin (l : Ledger) (caller : String) : Bool :=
  match l.findUser caller with
  | some u => u.role == .admin
  | none => false

def Ledger.isManagerOrAdmin (l : Ledger) (caller : String) : Bool :=
  match l.findUser caller with
  | some u => u.role == .manager || u.role == .admin
  | none => false

/-- Modelled from the spec: deployment bootstrap. The deployment script
registers the deployer as Platform Admin first; the contract must let the
deployer hold Admin from construction for that call to pass its own
Admin-only check, so the initial ledger holds the deployer as an Admin. -/
def initialLedger (deployer : String) : Ledger :=
  { users := [{ id := 1, addr := deployer, name := "Platform Admin",
                email := "admin@company.com", role := .admin, isActive := true }],
    transactions := [], approvals := [],
    nextUserId := 2, nextTxId := 1, nextApprovalId := 1 }

/-- Modelled from the spec: registerUser (section 4.1). Admin-only; fails on a
duplicate address; creates an active user with the next id. -/
def Ledger.registerUser (l : Ledger) (caller addr name email : String)
    (role : LedgerRole) : Except LedgerError Ledger :=
  if !l.isAdmin caller then .error .unauthorized
  else
    match l.findUser addr with
    | some _ => .error .duplicateAddress
    | none =>
        .ok { l with
              users := l.users ++
                [{ id := l.nextUserId, addr := addr, name := name, email := email,
                   role := role, isActive := true }],
              nextUserId := l.nextUserId + 1 }

/-- Modelled from the spec: updateUserRole (section 4.1). Admin-only; mutates
the role in place; touches no Transaction or Approval. -/
def Ledger.updateUserRole (l : Ledger) (caller addr : String) (role : LedgerRole) :
    Except LedgerError Ledger :=
  if !l.isAdmin caller then .error .unauthorized
  else
    match l.findUser addr with
    | none => .error .userNotFound
    | some _ =>
        .ok { l with
              users := l.users.map (fun u => if u.addr == addr then { u with role := role } else u) }

/-- Modelled from the spec: createTransaction (section 4.1). Caller must be a
registered active user, the recipient registered, the amount positive; the new
transaction starts Pending with approvalId 0. -/
def Ledger.createTransaction (l : Ledger) (caller toAddr : String) (amount : Nat)
    (description : String) (now : Nat) : Except LedgerError Ledger :=
  match l.findUser caller with
  | none => .error .unauthorized
  | some u =>
    if !u.isActive then .error .unauthorized
    else
      match l.findUser toAddr with
      | none => .error .invalidRecipient
      | some _ =>
        if amount == 0 then .error .invalidAmount
        else
          .ok { l with
                transactions := l.transactions ++
                  [{ id := l.nextTxId, fromAddr := caller, toAddr := toAddr,
                     amount := amount, description := description, status := .pending,
                     timestamp := now, approvalId := 0 }],
                nextTxId := l.nextTxId + 1 }

/-- Modelled from the spec: requestApproval (section 4.1). Caller must be the
sender; the transaction must be Pending with no approval yet; creates a
Pending approval and links it. -/
def Ledger.requestApproval (l : Ledger) (caller : String) (txId : Nat)
    (reason : String) (now : Nat) : Except LedgerError Ledger :=
  match l.findTx txId with
  | none => .error .notFound
  | some tx =>
    if caller != tx.fromAddr then .error .notOwner
    else if !(tx.status == .pending && tx.approvalId == 0) then .error .invalidState
    else
      let ap : LedgerApproval :=
        { id := l.nextApprovalId, transactionId := txId, requester := caller,
          approver := "", status := .pending, reason := reason, timestamp := now }
      .ok { l.setTx { tx with approvalId := l.nextApprovalId } with
            approvals := l.approvals ++ [ap],
            nextApprovalId := l.nextApprovalId + 1 }

/-- Modelled from the spec: processApproval (section 4.1). Manager or Admin
only; the approval must be Pending; decides it and moves the linked
transaction to Active or Rejected. -/
def Ledger.processApproval (l : Ledger) (caller : String) (apId : Nat)
    (approved : Bool) (reason : String) (now : Nat) : Except LedgerError Ledger :=
  if !l.isManagerOrAdmin caller then .error .unauthorized
  else
    match l.findApproval apId with
    | none => .error .notFound
    | some ap =>
      if ap.status != .pending then .error .invalidState
      else
        match (l.setApproval
            { ap with status := if approved then .approved else .rejected,
                      approver := caller, reason := reason, timestamp := now }).findTx
            ap.transactionId with
        | none => .error .notFound
        | some tx =>
          .ok ((l.setApproval
              { ap with status := if approved then .approved else .rejected,
                        approver := caller, reason := reason, timestamp := now }).setTx
            { tx with status := if approved then .active else .rejected })

/-- Modelled from the spec: completeTransaction (section 4.1). Caller must be
the sender; the transaction must be Active; moves it to Completed. -/
def Ledger.completeTransaction (l : Ledger) (caller : String) (txId : Nat) :
    Except LedgerError Ledger :=
  match l.findTx txId with
  | none => .error .notFound
  | some tx =>
    if caller != tx.fromAddr then .error .notOwner
    else if tx.status != .active then .error .invalidState
    else .ok (l.setTx { tx with status := .completed })

/-- One state-changing ledger call with its arguments. -/
inductive LedgerOp where
  | registerUser (caller addr name email : String) (role : LedgerRole)
  | updateUserRole (caller addr : String) (role : LedgerRole)
  | createTransaction (caller toAddr : String) (amount : Nat) (description : String) (now : Nat)
  | requestApproval (caller : String) (txId : Nat) (reason : String) (now : Nat)
  | processApproval (caller : String) (apId : Nat) (approved : Bool) (reason : String) (now : Nat)
  | completeTransaction (caller : String) (txId : Nat)
  deriving DecidableEq, Repr

def applyOp (l : Ledger) : LedgerOp → Except LedgerError Ledger
  | .registerUser caller addr name email role => l.registerUser caller addr name email role
  | .updateUserRole caller addr role => l.updateUserRole caller addr role
  | .createTransaction caller toAddr amount description now =>
      l.createTransaction caller toAddr amount description now
  | .requestApproval caller txId reason now => l.requestApproval caller txId reason now
  | .processApproval caller apId approved reason now =>
      l.processApproval caller apId approved reason now
  | .completeTransaction caller txId => l.completeTransaction caller txId

/-- Ledger states reachable from deployment by successful calls. -/
inductive Reachable : Ledger → Prop where
  | init (deployer : String) : Reachable (initialLedger deployer)
  | step {l l2 : Ledger} (op : LedgerOp) :
      Reachable l → applyOp l op = .ok l2 → Reachable l2

/-- The transaction-status transition relation of the spec state diagram
(section 4.1), reflexivity included (a call that does not touch the
transaction leaves its status in place). -/
def allowedTransition (s s2 : TxStatus) : Prop :=
  s = s2 ∨ (s = .pending ∧ s2 = .active) ∨ (s = .pending ∧ s2 = .rejected) ∨
    (s = .active ∧ s2 = .completed)

/-- A transaction status with no outgoing transition. -/
def terminalStatus (s : TxStatus) : Prop :=
  s = .completed ∨ s = .rejected

/-- Well-formedness invariant of reachable ledgers: ids are below the next-id
counters, transaction ids are distinct, approval ids are positive, and a
Pending approval always points at a Pending transaction whose approvalId
links back to it. -/
structure LedgerWF (l : Ledger) : Prop where
  txIdsLt : ∀ t ∈ l.transactions, t.id < l.nextTxId
  txIdsNodup : (l.transactions.map (fun t => t.id)).Nodup
  apIdsLt : ∀ a ∈ l.approvals, a.id < l.nextApprovalId
  apIdsPos : ∀ a ∈ l.approvals, 1 ≤ a.id
  apNextPos : 1 ≤ l.nextApprovalId
  apTxLt : ∀ a ∈ l.approvals, a.transactionId < l.nextTxId
  pendingLink : ∀ a ∈ l.approvals, a.status = .pending →
    ∀ t ∈ l.transactions, t.id = a.transactionId →
      t.status = .pending ∧ t.approvalId = a.id

/-- A contract read surface on which every call fails (an unreachable RPC or
a reverting node), used to exercise the failure paths concretely. -/
def failingReads : ContractReads :=
  { getUser := fun _ => .error "network error",
    getTransaction := fun _ => .error "network error",
    getUserTransactions := fun _ => .error "network error",
    getAllTransactions := .error "network error",
    getPendingApprovals := .error "network error",
    getApproval := fun _ => .error "network error",
    getTransactionCount := .error "network error",
    getUserCount := .error "network error" }

/-- A contract read surface returning a user whose role integer 7 is outside
the UserRole enumeration (0, 1, 2). -/
def outOfRangeRoleReads : ContractReads :=
  { getUser := fun _ =>
      .ok { id := 1, walletAddress := "0xabc", name := "N", email := "e",
            role := 7, isActive := true, createdAt := 0 },
    getTransaction := fun _ => .error "no",
    getUserTransactions := fun _ => .error "no",
    getAllTransactions := .error "no",
    getPendingApprovals := .error "no",
    getApproval := fun _ => .error "no",
    getTransactionCount := .error "no",
    getUserCount := .error "no" }

/-- An ethers-style error object carrying both a revert reason and a message. -/
def c7ErrorObj : JsErrorObj :=
  { reason := some "Insufficient balance",
    message := some "execution reverted",
    dataMessage := none,
    stack := some "Error: execution reverted
    at main.js:10" }

/-- A cache holding a fresh user-transaction list and a fresh single
transaction entry, as they stand after both were fetched. -/
def c1StaleCache : Cache Nat :=
  [{ key := [.str QUERY_KEYS.USER_TRANSACTIONS, .str "0xabc", .num 31337],
     data := some 1, invalidated := false },
   { key := [.str QUERY_KEYS.TRANSACTION, .num 7, .num 31337],
     data := some 2, invalidated := false }]

/-- The resulting ledger of a successful call, the old ledger otherwise
(used to spell out concrete reachable ledgers). -/
def stepOrSame (l : Ledger) (op : LedgerOp) : Ledger :=
  match applyOp l op with
  | .ok l2 => l2
  | .error _ => l

def c3Deployer : String := "0xD"

def c3Ledger0 : Ledger := initialLedger c3Deployer

def c3Ledger1 : Ledger :=
  stepOrSame c3Ledger0 (.registerUser c3Deployer "0xA" "Alice" "alice@x.io" .regular)

def c3Ledger2 : Ledger :=
  stepOrSame c3Ledger1 (.registerUser c3Deployer "0xB" "Bob" "bob@x.io" .regular)

def c3Ledger3 : Ledger :=
  stepOrSame c3Ledger2 (.createTransaction "0xA" "0xB" 1000 "pay" 5)

def c3Ledger4 : Ledger :=
  stepOrSame c3Ledger3 (.requestApproval "0xA" 1 "please" 6)

def c3Ledger5 : Ledger :=
  stepOrSame c3Ledger4 (.processApproval c3Deployer 1 false "no" 7)

/-- The rejected transaction of the example ledger. -/
def c3RejectedTx : LedgerTx :=
  { id := 1, fromAddr := "0xA", toAddr := "0xB", amount := 1000,
    description := "pay", status := .rejected, timestamp := 5, approvalId := 1 }

lemma invalidateQueries_eq_map {α : Type} (f : QueryKey) (c : Cache α) :
    invalidateQueries f c = c.map (markAll [f]) := by
  unfold invalidateQueries markAll
  simp

lemma markAll_cons {α : Type} (f : QueryKey) (fs : List QueryKey) (e : CacheEntry α) :
    markAll fs (markAll [f] e) = markAll (f :: fs) e := by
  unfold markAll
  by_cases h : matchesFilter f e.key
  · simp [h]
  · simp [h]

lemma applyInvalidations_eq_map {α : Type} (fs : List QueryKey) (c : Cache α) :
    applyInvalidations fs c = c.map (markAll fs) := by
  induction fs generalizing c with
  | nil =>
    have h : List.map (markAll ([] : List QueryKey)) c = c := by
      have h2 : ∀ e ∈ c, markAll ([] : List QueryKey) e = id e := by
        intro e _
        simp [markAll]
      rw [List.map_congr_left h2, List.map_id]
    rw [h]
    simp [applyInvalidations]
  | cons f fs ih =>
    have h1 : applyInvalidations (f :: fs) c = applyInvalidations fs (invalidateQueries f c) := by
      simp [applyInvalidations]
    rw [h1, ih, invalidateQueries_eq_map, List.map_map]
    apply List.map_congr_left
    intro e _
    exact markAll_cons f fs e

lemma markAll_key {α : Type} (fs : List QueryKey) (e : CacheEntry α) :
    (markAll fs e).key = e.key := by
  unfold markAll
  split <;> rfl

lemma markAll_data {α : Type} (fs : List QueryKey) (e : CacheEntry α) :
    (markAll fs e).data = e.data := by
  unfold markAll
  split <;> rfl

lemma markAll_idem {α : Type} (fs : List QueryKey) (e : CacheEntry α) :
    markAll fs (markAll fs e) = markAll fs e := by
  unfold markAll
  by_cases h : fs.any (fun f => matchesFilter f e.key)
  · simp [h]
  · simp [h]

lemma applyInvalidations_idem {α : Type} (fs : List QueryKey) (c : Cache α) :
    applyInvalidations fs (applyInvalidations fs c) = applyInvalidations fs c := by
  rw [applyInvalidations_eq_map, applyInvalidations_eq_map, List.map_map]
  apply List.map_congr_left
  intro e _
  simp only [Function.comp_apply]
  exact markAll_idem fs e

lemma applyInvalidations_data {α : Type} (fs : List QueryKey) (c : Cache α) :
    (applyInvalidations fs c).map (fun e => (e.key, e.data)) =
      c.map (fun e => (e.key, e.data)) := by
  rw [applyInvalidations_eq_map, List.map_map]
  apply List.map_congr_left
  intro e _
  simp only [Function.comp_apply]
  rw [markAll_key, markAll_data]

lemma sorted_sortByTimestampDescBy {β : Type} (ts : β → Nat) (l : List β) :
    (sortByTimestampDescBy ts l).Pairwise (fun a b => ts b ≤ ts a) := by
  haveI ht : IsTotal β (fun a b => ts b ≤ ts a) := ⟨fun a b => Nat.le_total (ts b) (ts a)⟩
  haveI htr : IsTrans β (fun a b => ts b ≤ ts a) := ⟨fun _ _ _ h1 h2 => Nat.le_trans h2 h1⟩
  exact List.sorted_insertionSort (fun a b => ts b ≤ ts a) l

lemma removeListeners_install (g : Nat) :
    removeListeners g (contractEventTypes.map (fun e => (e, g))) = [] := by
  simp [removeListeners, contractEventTypes, removeListener]

lemma renderEventLayer_canonical (cfg : Nat → Bool) (s : EventLayerState)
    (d : WalletSnapshot) (h : s.listeners = canonicalListeners cfg s.current) :
    (renderEventLayer cfg s d).listeners =
      canonicalListeners cfg (renderEventLayer cfg s d).current := by
  unfold renderEventLayer
  match hs : s.current with
  | some (d0, g0) =>
    by_cases hd : d0 = d
    · simp only [hd]
      simp [h, hs, hd]
    · have hclean :
          (if d0.listenersActive cfg then removeListeners g0 s.listeners
           else s.listeners) = [] := by
        rw [h, hs]
        unfold canonicalListeners
        by_cases ha : d0.listenersActive cfg
        · simp [ha, removeListeners_install]
        · simp [ha]
      simp only [hd]
      by_cases hact : d.listenersActive cfg
      · simp [hd, hclean, hact, canonicalListeners, installListeners]
      · simp [hd, hclean, hact, canonicalListeners]
  | none =>
    by_cases hact : d.listenersActive cfg
    · simp [h, hs, hact, canonicalListeners, installListeners]
    · simp [h, hs, hact, canonicalListeners]

lemma runEventLayer_canonical (cfg : Nat → Bool) (renders : List WalletSnapshot) :
    (runEventLayer cfg renders).listeners =
      canonicalListeners cfg (runEventLayer cfg renders).current := by
  unfold runEventLayer
  have base : initialEventLayerState.listeners =
      canonicalListeners cfg initialEventLayerState.current := rfl
  generalize hstart : initialEventLayerState = s0 at base
  clear hstart
  induction renders generalizing s0 with
  | nil => exact base
  | cons d rest ih =>
    simp only [List.foldl_cons]
    exact ih (renderEventLayer cfg s0 d) (renderEventLayer_canonical cfg s0 d base)

lemma unmountEventLayer_empty (cfg : Nat → Bool) (s : EventLayerState)
    (h : s.listeners = canonicalListeners cfg s.current) :
    (unmountEventLayer cfg s).listeners = [] := by
  unfold unmountEventLayer
  match hs : s.current with
  | some (d0, g0) =>
    rw [h, hs]
    unfold canonicalListeners
    by_cases ha : d0.listenersActive cfg
    · simp [ha, removeListeners_install]
    · simp [ha]
  | none =>
    rw [h, hs]
    rfl

lemma countP_canonical_active (e : ContractEventType) (g : Nat) :
    (contractEventTypes.map (fun e2 => (e2, g))).countP (fun x => x.1 == e) = 1 := by
  cases e <;> rfl

lemma findTx_mem {l : Ledger} {i : Nat} {t : LedgerTx} (h : l.findTx i = some t) :
    t ∈ l.transactions ∧ t.id = i := by
  unfold Ledger.findTx at h
  have hp := @List.find?_some _ (fun t => t.id == i) t l.transactions h
  have hp2 : (t.id == i) = true := hp
  exact ⟨List.mem_of_find?_eq_some h, eq_of_beq hp2⟩

lemma findApproval_mem {l : Ledger} {i : Nat} {a : LedgerApproval}
    (h : l.findApproval i = some a) : a ∈ l.approvals ∧ a.id = i := by
  unfold Ledger.findApproval at h
  have hp := @List.find?_some _ (fun a => a.id == i) a l.approvals h
  have hp2 : (a.id == i) = true := hp
  exact ⟨List.mem_of_find?_eq_some h, eq_of_beq hp2⟩

lemma mem_setTx_cases {l : Ledger} {tnew t2 : LedgerTx}
    (h : t2 ∈ (l.setTx tnew).transactions) :
    (t2 = tnew ∧ ∃ t0, t0 ∈ l.transactions ∧ t0.id = tnew.id) ∨
      (t2 ∈ l.transactions ∧ t2.id ≠ tnew.id) := by
  unfold Ledger.setTx at h
  rcases List.mem_map.mp h with ⟨t0, ht0, heq⟩
  by_cases hc : (t0.id == tnew.id) = true
  · left
    refine ⟨?_, t0, ht0, eq_of_beq hc⟩
    rw [← heq]
    simp [hc]
  · have h2 : t2 = t0 := by
      rw [← heq]
      simp [hc]
    subst h2
    right
    exact ⟨ht0, fun hid => hc (by simp [hid])⟩

lemma mem_setApproval_cases {l : Ledger} {anew a2 : LedgerApproval}
    (h : a2 ∈ (l.setApproval anew).approvals) :
    (a2 = anew ∧ ∃ a0, a0 ∈ l.approvals ∧ a0.id = anew.id) ∨
      (a2 ∈ l.approvals ∧ a2.id ≠ anew.id) := by
  unfold Ledger.setApproval at h
  rcases List.mem_map.mp h with ⟨a0, ha0, heq⟩
  by_cases hc : (a0.id == anew.id) = true
  · left
    refine ⟨?_, a0, ha0, eq_of_beq hc⟩
    rw [← heq]
    simp [hc]
  · have h2 : a2 = a0 := by
      rw [← heq]
      simp [hc]
    subst h2
    right
    exact ⟨ha0, fun hid => hc (by simp [hid])⟩

lemma setTx_map_id (l : Ledger) (t : LedgerTx) :
    (l.setTx t).transactions.map (fun x => x.id) = l.transactions.map (fun x => x.id) := by
  unfold Ledger.setTx
  simp only [List.map_map]
  apply List.map_congr_left
  intro t0 _
  simp only [Function.comp_apply]
  split
  · rename_i hc
    exact (eq_of_beq hc).symm
  · rfl

lemma setTx_transactions_eq (l : Ledger) (t : LedgerTx) :
    (l.setTx t).transactions = l.transactions.map (fun t0 => if t0.id == t.id then t else t0) :=
  rfl

/-- find? by id returns the member itself when mapped ids are distinct. -/
lemma find?_id_self {γ : Type} (key : γ → Nat) (xs : List γ)
    (hn : (xs.map key).Nodup) (x : γ) (hx : x ∈ xs) :
    xs.find? (fun y => key y == key x) = some x := by
  induction xs with
  | nil => cases hx
  | cons a rest ih =>
    rw [List.find?_cons]
    by_cases ha : (key a == key x) = true
    · have hk : key a = key x := eq_of_beq ha
      rcases List.mem_cons.mp hx with h1 | h1
      · rw [ha, h1]
      · exfalso
        have hn2 : key a ∉ rest.map key ∧ (rest.map key).Nodup := by
          rw [List.map_cons] at hn
          exact List.nodup_cons.mp hn
        exact hn2.1 (hk ▸ List.mem_map_of_mem key h1)
    · rw [Bool.not_eq_true] at ha
      rw [ha]
      have hn2 : key a ∉ rest.map key ∧ (rest.map key).Nodup := by
        rw [List.map_cons] at hn
        exact List.nodup_cons.mp hn
      rcases List.mem_cons.mp hx with h1 | h1
      · exfalso
        subst h1
        simp at ha
      · exact ih hn2.2 h1

lemma findTx_self {l : Ledger} (hn : (l.transactions.map (fun t => t.id)).Nodup)
    {t : LedgerTx} (ht : t ∈ l.transactions) : l.findTx t.id = some t := by
  unfold Ledger.findTx
  exact find?_id_self (fun t => t.id) l.transactions hn t ht

lemma wf_registerUser {l l2 : Ledger} {caller addr name email : String} {role : LedgerRole}
    (hwf : LedgerWF l) (h : l.registerUser caller addr name email role = .ok l2) :
    LedgerWF l2 := by
  unfold Ledger.registerUser at h
  split at h
  · simp at h
  · split at h
    · simp at h
    · simp only [Except.ok.injEq] at h
      subst h
      exact ⟨hwf.txIdsLt, hwf.txIdsNodup, hwf.apIdsLt, hwf.apIdsPos, hwf.apNextPos,
        hwf.apTxLt, hwf.pendingLink⟩

lemma wf_updateUserRole {l l2 : Ledger} {caller addr : String} {role : LedgerRole}
    (hwf : LedgerWF l) (h : l.updateUserRole caller addr role = .ok l2) :
    LedgerWF l2 := by
  unfold Ledger.updateUserRole at h
  split at h
  · simp at h
  · split at h
    · simp at h
    · simp only [Except.ok.injEq] at h
      subst h
      exact ⟨hwf.txIdsLt, hwf.txIdsNodup, hwf.apIdsLt, hwf.apIdsPos, hwf.apNextPos,
        hwf.apTxLt, hwf.pendingLink⟩

lemma wf_createTransaction {l l2 : Ledger} {caller toAddr : String} {amount : Nat}
    {description : String} {now : Nat}
    (hwf : LedgerWF l) (h : l.createTransaction caller toAddr amount description now = .ok l2) :
    LedgerWF l2 := by
  unfold Ledger.createTransaction at h
  split at h
  · simp at h
  · split at h
    · simp at h
    · split at h
      · simp at h
      · split at h
        · simp at h
        · simp only [Except.ok.injEq] at h
          subst h
          refine ⟨?_, ?_, hwf.apIdsLt, hwf.apIdsPos, hwf.apNextPos, ?_, ?_⟩
          · intro t ht
            rcases List.mem_append.mp ht with h1 | h1
            · exact Nat.lt_succ_of_lt (hwf.txIdsLt t h1)
            · have : t.id = l.nextTxId := by
                simp at h1
                rw [h1]
              rw [this]
              exact Nat.lt_succ_self _
          · rw [List.map_append, List.nodup_append]
            refine ⟨hwf.txIdsNodup, List.nodup_singleton _, ?_⟩
            intro x hx hx2
            rcases List.mem_map.mp hx with ⟨t0, ht0, hid⟩
            simp at hx2
            have := hwf.txIdsLt t0 ht0
            omega
          · intro a ha
            exact Nat.lt_succ_of_lt (hwf.apTxLt a ha)
          · intro a ha hap t ht hid
            rcases List.mem_append.mp ht with h1 | h1
            · exact hwf.pendingLink a ha hap t h1 hid
            · exfalso
              have hlt := hwf.apTxLt a ha
              have : t.id = l.nextTxId := by
                simp at h1
                rw [h1]
              omega

lemma wf_requestApproval {l l2 : Ledger} {caller : String} {txId : Nat}
    {reason : String} {now : Nat}
    (hwf : LedgerWF l) (h : l.requestApproval caller txId reason now = .ok l2) :
    LedgerWF l2 := by
  unfold Ledger.requestApproval at h
  split at h
  · simp at h
  · rename_i tx hfind
    split at h
    · simp at h
    · rename_i hown
      split at h
      · simp at h
      · rename_i hguard
        have hguard2 : tx.status = TxStatus.pending ∧ tx.approvalId = 0 := by
          rw [Bool.not_eq_true] at hguard
          simpa using hguard
        obtain ⟨hpend, hap0⟩ := hguard2
        obtain ⟨htxmem, htxid⟩ := findTx_mem hfind
        simp only [Except.ok.injEq] at h
        subst h
        refine ⟨?_, ?_, ?_, ?_, ?_, ?_, ?_⟩
        · intro t ht
          rcases mem_setTx_cases ht with ⟨heq, _⟩ | ⟨hmem, _⟩
          · rw [heq]
            exact hwf.txIdsLt tx htxmem
          · exact hwf.txIdsLt t hmem
        · rw [setTx_map_id]
          exact hwf.txIdsNodup
        · intro a ha
          rcases List.mem_append.mp ha with h1 | h1
          · exact Nat.lt_succ_of_lt (hwf.apIdsLt a h1)
          · simp at h1
            rw [h1]
            exact Nat.lt_succ_self _
        · intro a ha
          rcases List.mem_append.mp ha with h1 | h1
          · exact hwf.apIdsPos a h1
          · simp at h1
            rw [h1]
            exact hwf.apNextPos
        · exact Nat.le_succ_of_le hwf.apNextPos
        · intro a ha
          rcases List.mem_append.mp ha with h1 | h1
          · exact hwf.apTxLt a h1
          · simp at h1
            rw [h1]
            rw [← htxid]
            exact hwf.txIdsLt tx htxmem
        · intro a ha hapend t ht hid
          rcases List.mem_append.mp ha with h1 | h1
          · rcases mem_setTx_cases ht with ⟨heq, _⟩ | ⟨hmem, hne⟩
            · exfalso
              have hid2 : tx.id = a.transactionId := by
                rw [← hid, heq]
              have hlink := hwf.pendingLink a h1 hapend tx htxmem hid2
              have := hwf.apIdsPos a h1
              rw [hap0] at hlink
              omega
            · exact hwf.pendingLink a h1 hapend t hmem hid
          · simp at h1
            rcases mem_setTx_cases ht with ⟨heq, _⟩ | ⟨hmem, hne⟩
            · subst heq
              subst h1
              exact ⟨hpend, rfl⟩
            · exfalso
              apply hne
              rw [hid, h1]
              simp [htxid]

/-- Shared shape of the two state writes of processApproval: decide the
approval (to a non-Pending status, id and link unchanged) and restatus the
linked transaction (id unchanged). -/
lemma wf_process_core {l : Ledger} (hwf : LedgerWF l) {ap : LedgerApproval} {tx : LedgerTx}
    (hapmem : ap ∈ l.approvals) (hst : ap.status = .pending)
    (htxmem : tx ∈ l.transactions) (htxid : tx.id = ap.transactionId)
    (ap2 : LedgerApproval) (hap2id : ap2.id = ap.id)
    (hap2tid : ap2.transactionId = ap.transactionId) (hap2st : ap2.status ≠ .pending)
    (tx2 : LedgerTx) (htx2id : tx2.id = tx.id) :
    LedgerWF ((l.setApproval ap2).setTx tx2) := by
  refine ⟨?_, ?_, ?_, ?_, hwf.apNextPos, ?_, ?_⟩
  · intro t ht
    rcases mem_setTx_cases ht with ⟨heq, _⟩ | ⟨hmem, _⟩
    · rw [heq, htx2id]
      exact hwf.txIdsLt tx htxmem
    · exact hwf.txIdsLt t hmem
  · have h2 : ((l.setApproval ap2).setTx tx2).transactions.map (fun x => x.id) =
        (l.setApproval ap2).transactions.map (fun x => x.id) := setTx_map_id _ tx2
    rw [h2]
    exact hwf.txIdsNodup
  · intro a ha
    rcases mem_setApproval_cases ha with ⟨heq, _⟩ | ⟨hmem, _⟩
    · rw [heq, hap2id]
      exact hwf.apIdsLt ap hapmem
    · exact hwf.apIdsLt a hmem
  · intro a ha
    rcases mem_setApproval_cases ha with ⟨heq, _⟩ | ⟨hmem, _⟩
    · rw [heq, hap2id]
      exact hwf.apIdsPos ap hapmem
    · exact hwf.apIdsPos a hmem
  · intro a ha
    rcases mem_setApproval_cases ha with ⟨heq, _⟩ | ⟨hmem, _⟩
    · rw [heq, hap2tid]
      exact hwf.apTxLt ap hapmem
    · exact hwf.apTxLt a hmem
  · intro a ha hapend t ht hid
    rcases mem_setApproval_cases ha with ⟨heq, _⟩ | ⟨hmem, hne⟩
    · exfalso
      rw [heq] at hapend
      exact hap2st hapend
    · rcases mem_setTx_cases ht with ⟨heq, _⟩ | ⟨htmem, htne⟩
      · exfalso
        have hid2 : tx.id = a.transactionId := by
          rw [← hid, heq, htx2id]
        have hl1 := hwf.pendingLink a hmem hapend tx htxmem hid2
        have hl2 := hwf.pendingLink ap hapmem hst tx htxmem htxid
        exact hne (by rw [← hl1.2, hl2.2, hap2id])
      · exact hwf.pendingLink a hmem hapend t htmem hid

lemma wf_processApproval {l l3 : Ledger} {caller : String} {apId : Nat}
    {approved : Bool} {reason : String} {now : Nat}
    (hwf : LedgerWF l) (h : l.processApproval caller apId approved reason now = .ok l3) :
    LedgerWF l3 := by
  unfold Ledger.processApproval at h
  split at h
  · simp at h
  · split at h
    · simp at h
    · rename_i ap hfind
      split at h
      · simp at h
      · rename_i hstb
        have hst : ap.status = ApStatus.pending := by
          rw [Bool.not_eq_true] at hstb
          simpa using hstb
        obtain ⟨hapmem, hapid⟩ := findApproval_mem hfind
        cases approved with
        | true =>
          rw [if_pos rfl, if_pos rfl] at h
          split at h
          · simp at h
          · rename_i tx hfind2
            obtain ⟨htxmem, htxid⟩ := findTx_mem hfind2
            simp only [Except.ok.injEq] at h
            subst h
            apply wf_process_core hwf hapmem hst htxmem htxid
            · rfl
            · rfl
            · simp
            · rfl
        | false =>
          rw [if_neg (by decide), if_neg (by decide)] at h
          split at h
          · simp at h
          · rename_i tx hfind2
            obtain ⟨htxmem, htxid⟩ := findTx_mem hfind2
            simp only [Except.ok.injEq] at h
            subst h
            apply wf_process_core hwf hapmem hst htxmem htxid
            · rfl
            · rfl
            · simp
            · rfl

lemma wf_completeTransaction {l l2 : Ledger} {caller : String} {txId : Nat}
    (hwf : LedgerWF l) (h : l.completeTransaction caller txId = .ok l2) :
    LedgerWF l2 := by
  unfold Ledger.completeTransaction at h
  split at h
  · simp at h
  · rename_i tx hfind
    split at h
    · simp at h
    · split at h
      · simp at h
      · rename_i hstb
        have hst : tx.status = TxStatus.active := by
          rw [Bool.not_eq_true] at hstb
          simpa using hstb
        obtain ⟨htxmem, htxid⟩ := findTx_mem hfind
        simp only [Except.ok.injEq] at h
        subst h
        refine ⟨?_, ?_, hwf.apIdsLt, hwf.apIdsPos, hwf.apNextPos, hwf.apTxLt, ?_⟩
        · intro t ht
          rcases mem_setTx_cases ht with ⟨heq, _⟩ | ⟨hmem, _⟩
          · rw [heq]
            exact hwf.txIdsLt tx htxmem
          · exact hwf.txIdsLt t hmem
        · rw [setTx_map_id]
          exact hwf.txIdsNodup
        · intro a ha hapend t ht hid
          rcases mem_setTx_cases ht with ⟨heq, _⟩ | ⟨htmem, htne⟩
          · exfalso
            have hid2 : tx.id = a.transactionId := by
              rw [← hid, heq]
            have hl := hwf.pendingLink a ha hapend tx htxmem hid2
            rw [hst] at hl
            exact TxStatus.noConfusion hl.1
          · exact hwf.pendingLink a ha hapend t htmem hid

lemma wf_initialLedger (deployer : String) : LedgerWF (initialLedger deployer) := by
  refine ⟨?_, ?_, ?_, ?_, ?_, ?_, ?_⟩ <;> simp [initialLedger]

lemma reachable_wf {l : Ledger} (h : Reachable l) : LedgerWF l := by
  induction h with
  | init deployer => exact wf_initialLedger deployer
  | step op hre hok ih =>
    cases op with
    | registerUser caller addr name email role => exact wf_registerUser ih hok
    | updateUserRole caller addr role => exact wf_updateUserRole ih hok
    | createTransaction caller toAddr amount description now =>
        exact wf_createTransaction ih hok
    | requestApproval caller txId reason now => exact wf_requestApproval ih hok
    | processApproval caller apId approved reason now => exact wf_processApproval ih hok
    | completeTransaction caller txId => exact wf_completeTransaction ih hok

lemma tx_eq_of_id_eq {l : Ledger} (hwf : LedgerWF l) {t t2 : LedgerTx}
    (ht : t ∈ l.transactions) (ht2 : t2 ∈ l.transactions) (hid : t.id = t2.id) :
    t = t2 :=
  List.inj_on_of_nodup_map hwf.txIdsNodup ht ht2 hid

lemma transitions_applyOp {l l2 : Ledger} (hwf : LedgerWF l) (op : LedgerOp)
    (h : applyOp l op = .ok l2) :
    ∀ t ∈ l.transactions, ∀ t2 ∈ l2.transactions, t.id = t2.id →
      allowedTransition t.status t2.status := by
  cases op with
  | registerUser caller addr name email role =>
    simp only [applyOp] at h
    unfold Ledger.registerUser at h
    split at h
    · simp at h
    · split at h
      · simp at h
      · simp only [Except.ok.injEq] at h
        subst h
        intro t ht t2 ht2 hid
        rw [tx_eq_of_id_eq hwf ht ht2 hid]
        exact Or.inl rfl
  | updateUserRole caller addr role =>
    simp only [applyOp] at h
    unfold Ledger.updateUserRole at h
    split at h
    · simp at h
    · split at h
      · simp at h
      · simp only [Except.ok.injEq] at h
        subst h
        intro t ht t2 ht2 hid
        rw [tx_eq_of_id_eq hwf ht ht2 hid]
        exact Or.inl rfl
  | createTransaction caller toAddr amount description now =>
    simp only [applyOp] at h
    unfold Ledger.createTransaction at h
    split at h
    · simp at h
    · split at h
      · simp at h
      · split at h
        · simp at h
        · split at h
          · simp at h
          · simp only [Except.ok.injEq] at h
            subst h
            intro t ht t2 ht2 hid
            rcases List.mem_append.mp ht2 with h1 | h1
            · rw [tx_eq_of_id_eq hwf ht h1 hid]
              exact Or.inl rfl
            · exfalso
              have hlt := hwf.txIdsLt t ht
              have h2 : t2.id = l.nextTxId := by
                simp at h1
                rw [h1]
              omega
  | requestApproval caller txId reason now =>
    simp only [applyOp] at h
    unfold Ledger.requestApproval at h
    split at h
    · simp at h
    · rename_i tx hfind
      split at h
      · simp at h
      · split at h
        · simp at h
        · obtain ⟨htxmem, htxid⟩ := findTx_mem hfind
          simp only [Except.ok.injEq] at h
          subst h
          intro t ht t2 ht2 hid
          rcases mem_setTx_cases ht2 with ⟨heq, _⟩ | ⟨hmem, _⟩
          · have hid2 : t.id = tx.id := by
              rw [hid, heq]
            rw [tx_eq_of_id_eq hwf ht htxmem hid2, heq]
            exact Or.inl rfl
          · rw [tx_eq_of_id_eq hwf ht hmem hid]
            exact Or.inl rfl
  | processApproval caller apId approved reason now =>
    simp only [applyOp] at h
    unfold Ledger.processApproval at h
    split at h
    · simp at h
    · split at h
      · simp at h
      · rename_i ap hfind
        split at h
        · simp at h
        · rename_i hstb
          have hst : ap.status = ApStatus.pending := by
            rw [Bool.not_eq_true] at hstb
            simpa using hstb
          obtain ⟨hapmem, hapid⟩ := findApproval_mem hfind
          cases approved with
          | true =>
            rw [if_pos rfl, if_pos rfl] at h
            split at h
            · simp at h
            · rename_i tx hfind2
              obtain ⟨htxmem, htxid⟩ := findTx_mem hfind2
              have hpend := (hwf.pendingLink ap hapmem hst tx htxmem htxid).1
              simp only [Except.ok.injEq] at h
              subst h
              intro t ht t2 ht2 hid
              rcases mem_setTx_cases ht2 with ⟨heq, _⟩ | ⟨hmem, _⟩
              · have hid2 : t.id = tx.id := by
                  rw [hid, heq]
                rw [tx_eq_of_id_eq hwf ht htxmem hid2, heq]
                exact Or.inr (Or.inl ⟨hpend, rfl⟩)
              · rw [tx_eq_of_id_eq hwf ht hmem hid]
                exact Or.inl rfl
          | false =>
            rw [if_neg (by decide), if_neg (by decide)] at h
            split at h
            · simp at h
            · rename_i tx hfind2
              obtain ⟨htxmem, htxid⟩ := findTx_mem hfind2
              have hpend := (hwf.pendingLink ap hapmem hst tx htxmem htxid).1
              simp only [Except.ok.injEq] at h
              subst h
              intro t ht t2 ht2 hid
              rcases mem_setTx_cases ht2 with ⟨heq, _⟩ | ⟨hmem, _⟩
              · have hid2 : t.id = tx.id := by
                  rw [hid, heq]
                rw [tx_eq_of_id_eq hwf ht htxmem hid2, heq]
                exact Or.inr (Or.inr (Or.inl ⟨hpend, rfl⟩))
              · rw [tx_eq_of_id_eq hwf ht hmem hid]
                exact Or.inl rfl
  | completeTransaction caller txId =>
    simp only [applyOp] at h
    unfold Ledger.completeTransaction at h
    split at h
    · simp at h
    · rename_i tx hfind
      split at h
      · simp at h
      · split at h
        · simp at h
        · rename_i hstb
          have hst : tx.status = TxStatus.active := by
            rw [Bool.not_eq_true] at hstb
            simpa using hstb
          obtain ⟨htxmem, htxid⟩ := findTx_mem hfind
          simp only [Except.ok.injEq] at h
          subst h
          intro t ht t2 ht2 hid
          rcases mem_setTx_cases ht2 with ⟨heq, _⟩ | ⟨hmem, _⟩
          · have hid2 : t.id = tx.id := by
              rw [hid, heq]
            rw [tx_eq_of_id_eq hwf ht htxmem hid2, heq]
            exact Or.inr (Or.inr (Or.inr ⟨hst, rfl⟩))
          · rw [tx_eq_of_id_eq hwf ht hmem hid]
            exact Or.inl rfl

lemma terminal_requestApproval {l : Ledger} (hwf : LedgerWF l) {t : LedgerTx}
    (ht : t ∈ l.transactions) (hterm : terminalStatus t.status)
    (reason : String) (now : Nat) :
    l.requestApproval t.fromAddr t.id reason now = .error .invalidState := by
  unfold Ledger.requestApproval
  rw [findTx_self hwf.txIdsNodup ht]
  rcases hterm with h | h <;> simp [h]

lemma terminal_completeTransaction {l : Ledger} (hwf : LedgerWF l) {t : LedgerTx}
    (ht : t ∈ l.transactions) (hterm : terminalStatus t.status) :
    l.completeTransaction t.fromAddr t.id = .error .invalidState := by
  unfold Ledger.completeTransaction
  rw [findTx_self hwf.txIdsNodup ht]
  rcases hterm with h | h <;> simp [h]

lemma terminal_processApproval {l : Ledger} (hwf : LedgerWF l) {t : LedgerTx}
    (ht : t ∈ l.transactions) (hterm : terminalStatus t.status)
    {apId : Nat} {ap : LedgerApproval} (hfind : l.findApproval apId = some ap)
    (hlink : ap.transactionId = t.id) (caller : String)
    (hmgr : l.isManagerOrAdmin caller = true)
    (approved : Bool) (reason : String) (now : Nat) :
    l.processApproval caller apId approved reason now = .error .invalidState := by
  obtain ⟨hapmem, hapid⟩ := findApproval_mem hfind
  have hnp : ap.status ≠ ApStatus.pending := by
    intro hp
    have hpend := (hwf.pendingLink ap hapmem hp t ht hlink.symm).1
    rcases hterm with h | h <;> rw [hpend] at h <;> exact TxStatus.noConfusion h
  unfold Ledger.processApproval
  simp [hmgr, hfind, hnp]

/-- C9: the pending-approvals list refetches on a fixed 10000 ms interval
(tens of seconds) and the dashboard metrics on a strictly longer fixed
30000 ms interval. -/
theorem C9_theorem :
    usePendingApprovals.refetchIntervalMs = 10000 ∧
    useDashboardMetrics.refetchIntervalMs = 30000 ∧
    10 * 1000 ≤ usePendingApprovals.refetchIntervalMs ∧
    usePendingApprovals.refetchIntervalMs < 100 * 1000 ∧
    usePendingApprovals.refetchIntervalMs < useDashboardMetrics.refetchIntervalMs := by
  refine ⟨rfl, rfl, ?_, ?_, ?_⟩ <;> decide

/-- C10: every list produced by useUserTransactions, useAllTransactions and
usePendingApprovals is sorted by timestamp in descending order (most recent
first), whatever the contract returns. -/
theorem C10_theorem :
    ∀ (c : ContractReads) (provider : Bool) (chainId : Option Nat) (targetAddress : String),
      (useUserTransactions.queryFn c provider chainId targetAddress).Pairwise
        (fun a b => b.timestamp ≤ a.timestamp) ∧
      (useAllTransactions.queryFn c provider chainId).Pairwise
        (fun a b => b.timestamp ≤ a.timestamp) ∧
      (usePendingApprovals.queryFn c provider chainId).Pairwise
        (fun a b => b.timestamp ≤ a.timestamp) := by
  intro c provider chainId targetAddress
  refine ⟨?_, ?_, ?_⟩
  · unfold useUserTransactions.queryFn
    split
    · exact List.Pairwise.nil
    · split
      · apply sorted_sortByTimestampDescBy
      · exact List.Pairwise.nil
  · unfold useAllTransactions.queryFn
    split
    · exact List.Pairwise.nil
    · split
      · apply sorted_sortByTimestampDescBy
      · exact List.Pairwise.nil
  · unfold usePendingApprovals.queryFn
    split
    · exact List.Pairwise.nil
    · split
      · apply sorted_sortByTimestampDescBy
      · exact List.Pairwise.nil

/-- C2: every read hook resolves to null (single entity) or the empty list
(collections) when the underlying contract call throws; by construction the
query functions are total, so no exception reaches the caller. -/
theorem C2_theorem (c : ContractReads) :
    (∀ (a e : String), c.getUser a = .error e →
      ∀ (provider : Bool) (chainId : Option Nat),
        useUser.queryFn c provider chainId a = none) ∧
    (∀ (i : Int) (e : String), c.getTransaction i = .error e →
      ∀ (provider : Bool) (chainId : Option Nat),
        useTransaction.queryFn c provider chainId i = none) ∧
    (∀ (a e : String), c.getUserTransactions a = .error e →
      ∀ (provider : Bool) (chainId : Option Nat),
        useUserTransactions.queryFn c provider chainId a = []) ∧
    (∀ (e : String), c.getAllTransactions = .error e →
      ∀ (provider : Bool) (chainId : Option Nat),
        useAllTransactions.queryFn c provider chainId = []) ∧
    (∀ (e : String), c.getPendingApprovals = .error e →
      ∀ (provider : Bool) (chainId : Option Nat),
        usePendingApprovals.queryFn c provider chainId = []) ∧
    (∀ (i : Nat) (e : String), c.getApproval i = .error e →
      ∀ (provider : Bool) (chainId : Option Nat),
        useApproval.queryFn c provider chainId (some i) = none) ∧
    (∀ (e : String), c.getTransactionCount = .error e →
      ∀ (provider : Bool) (chainId : Option Nat) (user : Option ClientUser),
        useDashboardMetrics.queryFn c provider chainId user = none) ∧
    (∀ (e : String), c.getUserCount = .error e →
      ∀ (provider : Bool) (chainId : Option Nat) (user : Option ClientUser),
        useDashboardMetrics.queryFn c provider chainId user = none) ∧
    (∀ (e : String), c.getPendingApprovals = .error e →
      ∀ (provider : Bool) (chainId : Option Nat) (user : Option ClientUser),
        useDashboardMetrics.queryFn c provider chainId user = none) := by
  refine ⟨?_, ?_, ?_, ?_, ?_, ?_, ?_, ?_, ?_⟩
  · intro a e h provider chainId
    unfold useUser.queryFn
    split
    · rfl
    · rw [h]
  · intro i e h provider chainId
    unfold useTransaction.queryFn
    split
    · rfl
    · rw [h]
  · intro a e h provider chainId
    unfold useUserTransactions.queryFn
    split
    · rfl
    · rw [h]
      rfl
  · intro e h provider chainId
    unfold useAllTransactions.queryFn
    split
    · rfl
    · rw [h]
      rfl
  · intro e h provider chainId
    unfold usePendingApprovals.queryFn
    split
    · rfl
    · rw [h]
      rfl
  · intro i e h provider chainId
    unfold useApproval.queryFn
    split
    · rfl
    · rw [Option.getD_some, h]
  · intro e h provider chainId user
    unfold useDashboardMetrics.queryFn
    split
    · rfl
    · rw [h]
  · intro e h provider chainId user
    unfold useDashboardMetrics.queryFn
    split
    · rfl
    · cases h1 : c.getTransactionCount with
      | error e1 => rfl
      | ok n => rw [h]
  · intro e h provider chainId user
    unfold useDashboardMetrics.queryFn
    split
    · rfl
    · cases h1 : c.getTransactionCount with
      | error e1 => rfl
      | ok n =>
        cases h2 : c.getUserCount with
        | error e2 => rfl
        | ok m => rw [h]

/-- C2 witness: on a read surface where every call fails, the hooks resolve
to null or the empty list. -/
theorem C2_witness :
    useUser.queryFn failingReads true (some 31337) "0xabc" = none ∧
    useTransaction.queryFn failingReads true (some 31337) 3 = none ∧
    useUserTransactions.queryFn failingReads true (some 31337) "0xabc" = [] ∧
    useAllTransactions.queryFn failingReads true (some 31337) = [] ∧
    usePendingApprovals.queryFn failingReads true (some 31337) = [] ∧
    useApproval.queryFn failingReads true (some 31337) (some 5) = none ∧
    useDashboardMetrics.queryFn failingReads true (some 31337) none = none :=
  ⟨(C2_theorem failingReads).1 "0xabc" "network error" rfl true (some 31337),
   (C2_theorem failingReads).2.1 3 "network error" rfl true (some 31337),
   (C2_theorem failingReads).2.2.1 "0xabc" "network error" rfl true (some 31337),
   (C2_theorem failingReads).2.2.2.1 "network error" rfl true (some 31337),
   (C2_theorem failingReads).2.2.2.2.1 "network error" rfl true (some 31337),
   (C2_theorem failingReads).2.2.2.2.2.1 5 "network error" rfl true (some 31337),
   (C2_theorem failingReads).2.2.2.2.2.2.1 "network error" rfl true (some 31337) none⟩

/-- C8 counterexample: useUser does not map the wire role integer to a tagged
enumeration with an Unknown fallback; the out-of-range role 7 is stored in the
client User object untouched. -/
theorem C8_counterexample :
    (useUser.queryFn outOfRangeRoleReads true (some 31337) "0xabc").map
      (fun u => u.role) = some 7 ∧ ¬(7 : Nat) ≤ 2 := by
  exact ⟨rfl, by decide⟩

/-- C8 as amended: the event-handler display mappings translate status
integers through explicit label tables with the fallback Unknown for every
out-of-range value, but the read-hook object mappings pass role and status
integers through unchanged with no fallback. -/
theorem C8_theorem :
    (∀ n : Nat, 4 ≤ n → transactionStatusText n = "Unknown") ∧
    (∀ n : Nat, 3 ≤ n → approvalStatusText n = "Unknown") ∧
    (transactionStatusText 0 = "Pending" ∧ transactionStatusText 1 = "Active" ∧
      transactionStatusText 2 = "Completed" ∧ transactionStatusText 3 = "Rejected") ∧
    (approvalStatusText 0 = "Pending" ∧ approvalStatusText 1 = "Approved" ∧
      approvalStatusText 2 = "Rejected") ∧
    (∀ u : RawUser, (mapUserData u).role = u.role) ∧
    (∀ t : RawTransaction, (mapTransactionData t).status = t.status) ∧
    (∀ a : RawApproval, (mapApprovalData a).status = a.status) := by
  refine ⟨?_, ?_, ⟨rfl, rfl, rfl, rfl⟩, ⟨rfl, rfl, rfl⟩, fun u => rfl, fun t => rfl,
    fun a => rfl⟩
  · intro n h
    unfold transactionStatusText
    have hlen : transactionStatusLabels.length ≤ n := by
      simp only [transactionStatusLabels, List.length_cons, List.length_nil]
      omega
    rw [List.getElem?_eq_none hlen]
    rfl
  · intro n h
    unfold approvalStatusText
    have hlen : approvalStatusLabels.length ≤ n := by
      simp only [approvalStatusLabels, List.length_cons, List.length_nil]
      omega
    rw [List.getElem?_eq_none hlen]
    rfl

/-- C8 witness: the Unknown fallback at the concrete out-of-range status 9,
and the raw pass-through of the out-of-range role 7. -/
theorem C8_witness :
    transactionStatusText 9 = "Unknown" ∧ approvalStatusText 9 = "Unknown" ∧
    (mapUserData { id := 1, walletAddress := "0xabc", name := "N", email := "e",
                   role := 7, isActive := true, createdAt := 0 }).role = 7 :=
  ⟨C8_theorem.1 9 (by decide), C8_theorem.2.1 9 (by decide),
   C8_theorem.2.2.2.2.1 { id := 1, walletAddress := "0xabc", name := "N", email := "e",
                          role := 7, isActive := true, createdAt := 0 }⟩

/-- C7 counterexample: extractErrorMessage is also used to surface errors to
the user (inline form errors), and it shows the message field even when the
error carries a revert reason; the claim that every surfaced error prefers
the reason field fails on it. -/
theorem C7_counterexample :
    c7ErrorObj.reason = some "Insufficient balance" ∧
    extractErrorMessage (.obj c7ErrorObj) = "execution reverted" ∧
    extractErrorMessage (.obj c7ErrorObj) ≠ "Insufficient balance" := by
  refine ⟨rfl, rfl, ?_⟩
  decide

/-- C7 as amended: formatError (the toast path of every mutation hook)
prefers the revert reason, then the message, then a fixed generic message;
extractErrorMessage (the inline form path) prefers the message, then
data.message, then a fixed generic message, and ignores the reason field;
neither formatter ever reads the stack field. -/
theorem C7_theorem :
    (∀ (e : JsErrorObj) (r : String), e.reason = some r → formatError (.obj e) = r) ∧
    (∀ (e : JsErrorObj) (m : String), e.reason = none → e.message = some m →
      formatError (.obj e) = m) ∧
    (∀ e : JsErrorObj, e.reason = none → e.message = none →
      formatError (.obj e) = "An unknown error occurred") ∧
    (∀ s : String, formatError (.str s) = s) ∧
    (formatError .other = "An unknown error occurred") ∧
    (∀ (e : JsErrorObj) (m : String), e.message = some m →
      extractErrorMessage (.obj e) = m) ∧
    (∀ (e : JsErrorObj) (m : String), e.message = none → e.dataMessage = some m →
      extractErrorMessage (.obj e) = m) ∧
    (∀ e : JsErrorObj, e.message = none → e.dataMessage = none →
      extractErrorMessage (.obj e) = "An unknown error occurred.") ∧
    (∀ (e : JsErrorObj) (s s2 : Option String),
      formatError (.obj { e with stack := s }) = formatError (.obj { e with stack := s2 }) ∧
      extractErrorMessage (.obj { e with stack := s }) =
        extractErrorMessage (.obj { e with stack := s2 })) := by
  refine ⟨?_, ?_, ?_, fun s => rfl, rfl, ?_, ?_, ?_, ?_⟩
  · intro e r h
    simp only [formatError]
    rw [h]
  · intro e m h1 h2
    simp only [formatError]
    rw [h1, h2]
  · intro e h1 h2
    simp only [formatError]
    rw [h1, h2]
  · intro e m h
    simp only [extractErrorMessage]
    rw [h]
  · intro e m h1 h2
    simp only [extractErrorMessage]
    rw [h1, h2]
  · intro e h1 h2
    simp only [extractErrorMessage]
    rw [h1, h2]
  · intro e s s2
    rcases e with ⟨reason, message, dataMessage, stack⟩
    cases reason <;> cases message <;> cases dataMessage <;> exact ⟨rfl, rfl⟩

/-- C7 witness: the amended formatter contract at concrete error values. -/
theorem C7_witness :
    formatError (.obj c7ErrorObj) = "Insufficient balance" ∧
    extractErrorMessage (.obj c7ErrorObj) = "execution reverted" ∧
    formatError (.obj { reason := none, message := none, dataMessage := none,
                        stack := some "trace" }) = "An unknown error occurred" :=
  ⟨C7_theorem.1 c7ErrorObj "Insufficient balance" rfl,
   C7_theorem.2.2.2.2.2.1 c7ErrorObj "execution reverted" rfl,
   C7_theorem.2.2.1 { reason := none, message := none, dataMessage := none,
                      stack := some "trace" } rfl rfl⟩

/-- C6: the zod form schemas reject a malformed address, a non-positive (or
unparseable) amount, and a too-short required reason before any contract call
is issued: the submit pipelines produce no ContractWrite for such inputs, and
every produced ContractWrite passed all the field rules. -/
theorem C6_theorem :
    (∀ toAddress amount description : String, matchesEthAddress toAddress = false →
      submitCreateTransaction toAddress amount description = none) ∧
    (∀ toAddress amount description : String, parseFloat amount = none →
      submitCreateTransaction toAddress amount description = none) ∧
    (∀ (toAddress amount description : String) (n : JsNum), parseFloat amount = some n →
      n.gtZero = false → submitCreateTransaction toAddress amount description = none) ∧
    (∀ (apId : Nat) (approved : Bool) (reason : String), reason.length < 3 →
      submitProcessApproval apId approved reason = none) ∧
    (∀ (emailOk : String → Bool) (w nm em : String) (role : Nat),
      matchesEthAddress w = false → submitRegisterUser emailOk w nm em role = none) ∧
    (∀ (toAddress amount description : String) (w : ContractWrite),
      submitCreateTransaction toAddress amount description = some w →
      matchesEthAddress toAddress = true ∧ amountRefineValid amount = true ∧
        3 ≤ description.length) ∧
    (∀ (apId : Nat) (approved : Bool) (reason : String) (w : ContractWrite),
      submitProcessApproval apId approved reason = some w → 3 ≤ reason.length) := by
  refine ⟨?_, ?_, ?_, ?_, ?_, ?_, ?_⟩
  · intro t a d h
    simp [submitCreateTransaction, createTransactionSchemaValid, h]
  · intro t a d h
    simp [submitCreateTransaction, createTransactionSchemaValid, amountRefineValid, h]
  · intro t a d n h1 h2
    simp [submitCreateTransaction, createTransactionSchemaValid, amountRefineValid, h1, h2]
  · intro apId approved reason h
    have h2 : ¬(3 ≤ reason.length) := by omega
    simp [submitProcessApproval, processApprovalSchemaValid, h2]
  · intro emailOk w nm em role h
    simp [submitRegisterUser, registerUserSchemaValid, h]
  · intro t a d w h
    unfold submitCreateTransaction at h
    split at h
    · rename_i hc
      simp only [createTransactionSchemaValid, Bool.and_eq_true, decide_eq_true_eq] at hc
      exact ⟨hc.1.1.1.1.2, hc.1.1.2, hc.1.2⟩
    · exact Option.noConfusion h
  · intro apId approved reason w h
    unfold submitProcessApproval at h
    split at h
    · rename_i hc
      simp only [processApprovalSchemaValid, Bool.and_eq_true, decide_eq_true_eq] at hc
      exact hc.1
    · exact Option.noConfusion h

/-- C6 witness: concrete invalid inputs produce no contract call. -/
theorem C6_witness :
    submitCreateTransaction "0x12" "5" "description" = none ∧
    submitCreateTransaction "0x1234567890123456789012345678901234567890" "abc"
      "description" = none ∧
    submitCreateTransaction "0x1234567890123456789012345678901234567890" "-3"
      "description" = none ∧
    submitCreateTransaction "0x1234567890123456789012345678901234567890" "0"
      "description" = none ∧
    submitProcessApproval 1 true "" = none :=
  ⟨C6_theorem.1 "0x12" "5" "description" (by decide),
   C6_theorem.2.1 "0x1234567890123456789012345678901234567890" "abc" "description"
     (by decide),
   C6_theorem.2.2.1 "0x1234567890123456789012345678901234567890" "-3" "description"
     (JsNum.finite (-3) 1) (by decide) (by decide),
   C6_theorem.2.2.1 "0x1234567890123456789012345678901234567890" "0" "description"
     (JsNum.finite 0 1) (by decide) (by decide),
   C6_theorem.2.2.2.1 1 true "" (by decide)⟩

/-- C5: every contract event handler touches the query cache only by
invalidating keys: it preserves every cached key and datum, and running the
same handler effect twice leaves the cache exactly as running it once
(invalidation is idempotent); notifications are separate from the cache. -/
theorem C5_theorem :
    ∀ (α : Type) (c : Cache α)
      (address fromAddr toAddr requester approver walletAddress name : String)
      (transactionId amount status approvalId userId role : Nat),
      (((handleTransactionCreated address transactionId fromAddr toAddr amount).applyTo c).map
          (fun e => (e.key, e.data)) = c.map (fun e => (e.key, e.data)) ∧
        (handleTransactionCreated address transactionId fromAddr toAddr amount).applyTo
            ((handleTransactionCreated address transactionId fromAddr toAddr amount).applyTo c) =
          (handleTransactionCreated address transactionId fromAddr toAddr amount).applyTo c) ∧
      (((handleTransactionStatusUpdated address transactionId status).applyTo c).map
          (fun e => (e.key, e.data)) = c.map (fun e => (e.key, e.data)) ∧
        (handleTransactionStatusUpdated address transactionId status).applyTo
            ((handleTransactionStatusUpdated address transactionId status).applyTo c) =
          (handleTransactionStatusUpdated address transactionId status).applyTo c) ∧
      (((handleApprovalRequested address approvalId transactionId requester).applyTo c).map
          (fun e => (e.key, e.data)) = c.map (fun e => (e.key, e.data)) ∧
        (handleApprovalRequested address approvalId transactionId requester).applyTo
            ((handleApprovalRequested address approvalId transactionId requester).applyTo c) =
          (handleApprovalRequested address approvalId transactionId requester).applyTo c) ∧
      (((handleApprovalProcessed address approvalId status approver).applyTo c).map
          (fun e => (e.key, e.data)) = c.map (fun e => (e.key, e.data)) ∧
        (handleApprovalProcessed address approvalId status approver).applyTo
            ((handleApprovalProcessed address approvalId status approver).applyTo c) =
          (handleApprovalProcessed address approvalId status approver).applyTo c) ∧
      (((handleUserRegistered address userId walletAddress name role).applyTo c).map
          (fun e => (e.key, e.data)) = c.map (fun e => (e.key, e.data)) ∧
        (handleUserRegistered address userId walletAddress name role).applyTo
            ((handleUserRegistered address userId walletAddress name role).applyTo c) =
          (handleUserRegistered address userId walletAddress name role).applyTo c) := by
  intro α c address fromAddr toAddr requester approver walletAddress name
    transactionId amount status approvalId userId role
  exact ⟨⟨applyInvalidations_data _ c, applyInvalidations_idem _ c⟩,
         ⟨applyInvalidations_data _ c, applyInvalidations_idem _ c⟩,
         ⟨applyInvalidations_data _ c, applyInvalidations_idem _ c⟩,
         ⟨applyInvalidations_data _ c, applyInvalidations_idem _ c⟩,
         ⟨applyInvalidations_data _ c, applyInvalidations_idem _ c⟩⟩

/-- C4: after any sequence of renders the event layer holds exactly the
canonical listener set of the last effect run: one listener per contract
event type while a wallet is connected and the contract available, none
otherwise; a dependency change swaps the set for the new run (old handlers
removed, fresh ones installed), and unmounting removes every listener. -/
theorem C4_theorem :
    ∀ (cfg : Nat → Bool) (renders : List WalletSnapshot),
      ((runEventLayer cfg renders).listeners =
        canonicalListeners cfg (runEventLayer cfg renders).current) ∧
      (∀ e : ContractEventType,
        (runEventLayer cfg renders).listeners.countP (fun x => x.1 == e) =
          (match (runEventLayer cfg renders).current with
           | some (d, _) => if d.listenersActive cfg then 1 else 0
           | none => 0)) ∧
      ((unmountEventLayer cfg (runEventLayer cfg renders)).listeners = []) := by
  intro cfg renders
  have hcan := runEventLayer_canonical cfg renders
  refine ⟨hcan, ?_, unmountEventLayer_empty cfg _ hcan⟩
  intro e
  rw [hcan]
  rcases hs : (runEventLayer cfg renders).current with _ | ⟨d, g⟩
  · rfl
  · unfold canonicalListeners
    by_cases ha : d.listenersActive cfg
    · simp only [ha, if_true]
      exact countP_canonical_active e g
    · simp [ha]

/-- C1 counterexample: the onSuccess invalidations of useProcessApproval and
useRequestApproval leave both the cached user-transaction list and the cached
single-transaction entry untouched, although both mutations change that
transaction's status or approvalId; the claim that they invalidate those keys
fails on the code. -/
theorem C1_counterexample :
    applyInvalidations useProcessApproval.onSuccessInvalidations c1StaleCache =
      c1StaleCache ∧
    applyInvalidations useRequestApproval.onSuccessInvalidations c1StaleCache =
      c1StaleCache ∧
    ∀ e ∈ c1StaleCache, e.invalidated = false := by
  refine ⟨rfl, rfl, ?_⟩
  decide

/-- C1 as amended: useCreateTransaction and useCompleteTransaction invalidate
the transactions, userTransactions and dashboardMetrics key families;
useProcessApproval invalidates pendingApprovals, transactions and
dashboardMetrics; useRequestApproval invalidates pendingApprovals and
transactions; neither useProcessApproval nor useRequestApproval invalidates
the userTransactions lists or the single-transaction entries — those are
refreshed only through the transactions family, the event layer or polling. -/
theorem C1_theorem :
    ∀ (α : Type) (d : Option α) (b : Bool) (rest : QueryKey),
      (applyInvalidations useCreateTransaction.onSuccessInvalidations
          [{ key := .str QUERY_KEYS.TRANSACTIONS :: rest, data := d, invalidated := b }] =
        [{ key := .str QUERY_KEYS.TRANSACTIONS :: rest, data := d, invalidated := true }]) ∧
      (applyInvalidations useCreateTransaction.onSuccessInvalidations
          [{ key := .str QUERY_KEYS.USER_TRANSACTIONS :: rest, data := d, invalidated := b }] =
        [{ key := .str QUERY_KEYS.USER_TRANSACTIONS :: rest, data := d, invalidated := true }]) ∧
      (applyInvalidations useCreateTransaction.onSuccessInvalidations
          [{ key := .str QUERY_KEYS.DASHBOARD_METRICS :: rest, data := d, invalidated := b }] =
        [{ key := .str QUERY_KEYS.DASHBOARD_METRICS :: rest, data := d, invalidated := true }]) ∧
      (useCompleteTransaction.onSuccessInvalidations =
        useCreateTransaction.onSuccessInvalidations) ∧
      (applyInvalidations useProcessApproval.onSuccessInvalidations
          [{ key := .str QUERY_KEYS.PENDING_APPROVALS :: rest, data := d, invalidated := b }] =
        [{ key := .str QUERY_KEYS.PENDING_APPROVALS :: rest, data := d, invalidated := true }]) ∧
      (applyInvalidations useProcessApproval.onSuccessInvalidations
          [{ key := .str QUERY_KEYS.TRANSACTIONS :: rest, data := d, invalidated := b }] =
        [{ key := .str QUERY_KEYS.TRANSACTIONS :: rest, data := d, invalidated := true }]) ∧
      (applyInvalidations useProcessApproval.onSuccessInvalidations
          [{ key := .str QUERY_KEYS.DASHBOARD_METRICS :: rest, data := d, invalidated := b }] =
        [{ key := .str QUERY_KEYS.DASHBOARD_METRICS :: rest, data := d, invalidated := true }]) ∧
      (applyInvalidations useProcessApproval.onSuccessInvalidations
          [{ key := .str QUERY_KEYS.USER_TRANSACTIONS :: rest, data := d, invalidated := b }] =
        [{ key := .str QUERY_KEYS.USER_TRANSACTIONS :: rest, data := d, invalidated := b }]) ∧
      (applyInvalidations useProcessApproval.onSuccessInvalidations
          [{ key := .str QUERY_KEYS.TRANSACTION :: rest, data := d, invalidated := b }] =
        [{ key := .str QUERY_KEYS.TRANSACTION :: rest, data := d, invalidated := b }]) ∧
      (applyInvalidations useRequestApproval.onSuccessInvalidations
          [{ key := .str QUERY_KEYS.PENDING_APPROVALS :: rest, data := d, invalidated := b }] =
        [{ key := .str QUERY_KEYS.PENDING_APPROVALS :: rest, data := d, invalidated := true }]) ∧
      (applyInvalidations useRequestApproval.onSuccessInvalidations
          [{ key := .str QUERY_KEYS.TRANSACTIONS :: rest, data := d, invalidated := b }] =
        [{ key := .str QUERY_KEYS.TRANSACTIONS :: rest, data := d, invalidated := true }]) ∧
      (applyInvalidations useRequestApproval.onSuccessInvalidations
          [{ key := .str QUERY_KEYS.USER_TRANSACTIONS :: rest, data := d, invalidated := b }] =
        [{ key := .str QUERY_KEYS.USER_TRANSACTIONS :: rest, data := d, invalidated := b }]) ∧
      (applyInvalidations useRequestApproval.onSuccessInvalidations
          [{ key := .str QUERY_KEYS.TRANSACTION :: rest, data := d, invalidated := b }] =
        [{ key := .str QUERY_KEYS.TRANSACTION :: rest, data := d, invalidated := b }]) ∧
      (applyInvalidations useRequestApproval.onSuccessInvalidations
          [{ key := .str QUERY_KEYS.DASHBOARD_METRICS :: rest, data := d, invalidated := b }] =
        [{ key := .str QUERY_KEYS.DASHBOARD_METRICS :: rest, data := d, invalidated := b }]) := by
  intro α d b rest
  exact ⟨rfl, rfl, rfl, rfl, rfl, rfl, rfl, rfl, rfl, rfl, rfl, rfl, rfl, rfl⟩

/-- C3: on every reachable ledger, transaction statuses lie in the
four-value enumeration, every successful call moves each transaction only
along the spec transition diagram, and a transaction in a terminal state
(Completed or Rejected) rejects requestApproval and completeTransaction from
its owner and processApproval of its linked approval from any manager with
InvalidState, the errors producing no new state. -/
theorem C3_theorem :
    ∀ l : Ledger, Reachable l →
      (∀ t ∈ l.transactions,
        t.status = TxStatus.pending ∨ t.status = TxStatus.active ∨
          t.status = TxStatus.completed ∨ t.status = TxStatus.rejected) ∧
      (∀ (op : LedgerOp) (l2 : Ledger), applyOp l op = .ok l2 →
        ∀ t ∈ l.transactions, ∀ t2 ∈ l2.transactions, t.id = t2.id →
          allowedTransition t.status t2.status) ∧
      (∀ t ∈ l.transactions, terminalStatus t.status →
        (∀ (reason : String) (now : Nat),
          l.requestApproval t.fromAddr t.id reason now = .error .invalidState) ∧
        (l.completeTransaction t.fromAddr t.id = .error .invalidState) ∧
        (∀ (caller : String) (apId : Nat) (ap : LedgerApproval) (approved : Bool)
            (reason : String) (now : Nat),
          l.isManagerOrAdmin caller = true → l.findApproval apId = some ap →
          ap.transactionId = t.id →
          l.processApproval caller apId approved reason now = .error .invalidState)) := by
  intro l hre
  have hwf := reachable_wf hre
  refine ⟨?_, ?_, ?_⟩
  · intro t _
    cases t.status <;> simp
  · intro op l2 h
    exact transitions_applyOp hwf op h
  · intro t ht hterm
    exact ⟨fun reason now => terminal_requestApproval hwf ht hterm reason now,
           terminal_completeTransaction hwf ht hterm,
           fun caller apId ap approved reason now hmgr hfind hlink =>
             terminal_processApproval hwf ht hterm hfind hlink caller hmgr
               approved reason now⟩

/-- C3 witness: a concrete deployment in which a transaction was created,
sent for approval and rejected; re-requesting approval or completing it now
fails with InvalidState. -/
theorem C3_witness :
    Reachable c3Ledger5 ∧
    c3RejectedTx ∈ c3Ledger5.transactions ∧
    c3RejectedTx.status = TxStatus.rejected ∧
    c3Ledger5.requestApproval "0xA" 1 "again" 8 = .error .invalidState ∧
    c3Ledger5.completeTransaction "0xA" 1 = .error .invalidState := by
  have h0 : Reachable c3Ledger0 := Reachable.init c3Deployer
  have h1 : Reachable c3Ledger1 :=
    Reachable.step (.registerUser c3Deployer "0xA" "Alice" "alice@x.io" .regular) h0 rfl
  have h2 : Reachable c3Ledger2 :=
    Reachable.step (.registerUser c3Deployer "0xB" "Bob" "bob@x.io" .regular) h1 rfl
  have h3 : Reachable c3Ledger3 :=
    Reachable.step (.createTransaction "0xA" "0xB" 1000 "pay" 5) h2 rfl
  have h4 : Reachable c3Ledger4 :=
    Reachable.step (.requestApproval "0xA" 1 "please" 6) h3 rfl
  have hre : Reachable c3Ledger5 :=
    Reachable.step (.processApproval c3Deployer 1 false "no" 7) h4 rfl
  have hfull := C3_theorem c3Ledger5 hre
  have htmem : c3RejectedTx ∈ c3Ledger5.transactions := by decide
  have hterm : terminalStatus c3RejectedTx.status := Or.inr rfl
  have hterminal := hfull.2.2 c3RejectedTx htmem hterm
  exact ⟨hre, htmem, rfl, hterminal.1 "again" 8, hterminal.2.1⟩
